import Mathlib

/-!
Verification development for the get-gpu control plane.

The definitions below are a shallow embedding of the TypeScript source:

* timestamps are modelled as natural numbers of milliseconds since the epoch
  (the source only ever stores ISO-8601 strings produced from current dates);
* money amounts are integers of cents, as in the source;
* `Math.ceil(x / y)` over exact values is modelled by `iceilDiv`;
* the key-value blob store is modelled by association lists keyed by the
  record field the source uses as the blob key; `putByKey` mirrors
  `setJSON` (replace the record at the key, or append a new one);
* external calls (the upstream cloud API) are modelled by oracle inputs in
  environment structures; a `none`/failure result models a thrown error;
* JavaScript object aliasing in the reconciler (mutating a VM object that
  also sits in the `vms` array) is modelled by reading the store, which the
  source keeps in sync by calling `putVM` right after each mutation.
-/

namespace GetGpu

/-- Ceiling division on integers, modelling exact `Math.ceil(a / b)` for `b > 0`. -/
def iceilDiv (a b : Int) : Int := -((-a).fdiv b)

/-- Elapsed whole minutes, rounded up: `Math.ceil((endMs - startMs) / (1000 * 60))`. -/
def minutesElapsed (startMs endMs : Int) : Int := iceilDiv (endMs - startMs) 60000

/-- Accrued cost in cents of a VM interval:
`Math.ceil(minutesElapsed * (priceCentsPerHour / 60))` over exact arithmetic. -/
def accruedFormula (launchedAt endMs : Nat) (priceCentsPerHour : Nat) : Int :=
  iceilDiv (minutesElapsed (launchedAt : Int) (endMs : Int) * (priceCentsPerHour : Int)) 60

/-- Role of a candidate record (`"candidate" | "admin"` in the source). -/
inductive Role where
  | candidate
  | admin
deriving DecidableEq, Repr

/-- Status of a launch request (union type in the source). -/
inductive LRStatus where
  | queued
  | provisioning
  | fulfilled
  | cancelled
  | failed
deriving DecidableEq, Repr

/-- Status of a filesystem seed-status record (`"seeding" | "ready"`). -/
inductive SeedSt where
  | seeding
  | ready
deriving DecidableEq, Repr

/-- Candidate record, keyed by (lowercased) email. -/
structure CandidateRecord where
  email : String
  name : String
  role : Role
  quotaDollars : Nat
  spentCents : Int
  addedAt : Nat
  addedBy : String
  spentResetAt : Option Nat
  deactivatedAt : Option Nat
deriving DecidableEq, Repr

/-- VM record, keyed by upstream instance id.  `status` is a plain string in
the source type and is kept as such. -/
structure VMRecord where
  instanceId : String
  candidateEmail : String
  instanceType : String
  region : String
  priceCentsPerHour : Nat
  launchedAt : Nat
  status : String
  ipAddress : Option String
  jupyterUrl : Option String
  sshKeyName : String
  terminatedAt : Option Nat
  terminationReason : Option String
  lastCheckedAt : Nat
  accruedCents : Int
deriving DecidableEq, Repr

/-- SSH key record, keyed by `email:keyName`. -/
structure SshKeyRecord where
  keyName : String
  candidateEmail : String
  publicKey : String
  registeredAt : Nat
deriving DecidableEq, Repr

/-- Launch request record, keyed by id. -/
structure LaunchRequest where
  id : String
  candidateEmail : String
  instanceTypes : List String
  regions : List String
  sshPublicKey : String
  attachFilesystem : Bool
  status : LRStatus
  createdAt : Nat
  fulfilledAt : Option Nat
  fulfilledInstanceId : Option String
  failureReason : Option String
  cancelledAt : Option Nat
  attempts : Nat
  lastAttemptAt : Option Nat
deriving DecidableEq, Repr

/-- Filesystem seed status record, keyed by `filesystemName:region`. -/
structure SeedStatusRecord where
  filesystemName : String
  region : String
  status : SeedSt
  seedingInstanceId : Option String
  claimedAt : Nat
  completedAt : Option Nat
deriving DecidableEq, Repr

/-- A default shared filesystem entry from admin settings.  The seed-script
text itself (shell source) is not modelled. -/
structure DefaultFilesystem where
  name : String
  sourceType : String
  sourceUrl : String
  credentials : String
  downloadScript : Option String
deriving DecidableEq, Repr

/-- Admin settings singleton. -/
structure AdminSettings where
  lambdaApiKey : Option String
  setupScript : Option String
  defaultFilesystems : Option (List DefaultFilesystem)
  seedCompleteSecret : Option String
deriving DecidableEq, Repr

/-- The blob store: one association list per collection, keyed as in the
source (`candidates` by email, `vms` by instance id, `ssh-keys` by
`email:keyName`, `launch-requests` by id, `seed-status` by
`filesystemName:region`, `settings` a singleton). -/
structure Store where
  candidates : List CandidateRecord
  vms : List VMRecord
  sshKeys : List SshKeyRecord
  launchRequests : List LaunchRequest
  seedStatuses : List SeedStatusRecord
  settings : Option AdminSettings
deriving DecidableEq, Repr

/-- Write a record at its key: replace the existing record, or append. -/
def putByKey {α : Type} (keyOf : α → String) (l : List α) (x : α) : List α :=
  if l.any (fun y => keyOf y == keyOf x)
  then l.map (fun y => if keyOf y == keyOf x then x else y)
  else l ++ [x]

/-- Read the record at a key. -/
def getByKey {α : Type} (keyOf : α → String) (l : List α) (k : String) : Option α :=
  l.find? (fun y => keyOf y == k)

/-- Delete the record at a key. -/
def delByKey {α : Type} (keyOf : α → String) (l : List α) (k : String) : List α :=
  l.filter (fun y => !(keyOf y == k))

def getCandidate (s : Store) (email : String) : Option CandidateRecord :=
  getByKey CandidateRecord.email s.candidates email

def putCandidate (s : Store) (c : CandidateRecord) : Store :=
  { s with candidates := putByKey CandidateRecord.email s.candidates c }

def getVM (s : Store) (instanceId : String) : Option VMRecord :=
  getByKey VMRecord.instanceId s.vms instanceId

def putVM (s : Store) (vm : VMRecord) : Store :=
  { s with vms := putByKey VMRecord.instanceId s.vms vm }

def listVMsByEmail (s : Store) (email : String) : List VMRecord :=
  s.vms.filter (fun vm => vm.candidateEmail == email)

def sshKeyKey (email keyName : String) : String := email ++ ":" ++ keyName

def getSshKey (s : Store) (email keyName : String) : Option SshKeyRecord :=
  getByKey (fun r => sshKeyKey r.candidateEmail r.keyName) s.sshKeys (sshKeyKey email keyName)

def putSshKey (s : Store) (r : SshKeyRecord) : Store :=
  { s with sshKeys := putByKey (fun r => sshKeyKey r.candidateEmail r.keyName) s.sshKeys r }

def deleteSshKeyRecord (s : Store) (email keyName : String) : Store :=
  { s with sshKeys := delByKey (fun r => sshKeyKey r.candidateEmail r.keyName) s.sshKeys (sshKeyKey email keyName) }

def getLaunchRequest (s : Store) (id : String) : Option LaunchRequest :=
  getByKey LaunchRequest.id s.launchRequests id

def putLaunchRequest (s : Store) (lr : LaunchRequest) : Store :=
  { s with launchRequests := putByKey LaunchRequest.id s.launchRequests lr }

def seedStatusKey (filesystemName region : String) : String :=
  filesystemName ++ ":" ++ region

def getSeedStatus (s : Store) (filesystemName region : String) : Option SeedStatusRecord :=
  getByKey (fun r => seedStatusKey r.filesystemName r.region) s.seedStatuses
    (seedStatusKey filesystemName region)

def putSeedStatus (s : Store) (r : SeedStatusRecord) : Store :=
  { s with seedStatuses := putByKey (fun r => seedStatusKey r.filesystemName r.region) s.seedStatuses r }

def deleteSeedStatus (s : Store) (filesystemName region : String) : Store :=
  { s with
    seedStatuses :=
      delByKey (fun r => seedStatusKey r.filesystemName r.region) s.seedStatuses
        (seedStatusKey filesystemName region) }

def getSettings (s : Store) : Option AdminSettings := s.settings

/-- `computeSpentCents` from `lib/blobs.ts`: real-time total spent cents for a
candidate across their VMs, skipping VMs launched before the reset cutoff
(`new Date(resetAfter).getTime()`; cutoff `0` when unset). -/
def computeSpentCents (vms : List VMRecord) (email : String) (resetAfter : Option Nat) (now : Nat) : Int :=
  let cutoff : Nat := resetAfter.getD 0
  (vms.filter (fun vm => vm.candidateEmail == email)).foldl
    (fun total vm =>
      if vm.launchedAt < cutoff then total
      else total + accruedFormula vm.launchedAt (vm.terminatedAt.getD now) vm.priceCentsPerHour)
    0

/-- Spec-side spending formula, written from the claim wording: the sum over
the candidate VMs whose `launchedAt` is at or after `resetAfter` (all VMs
when `resetAfter` is unset) of `ceil(minutes * priceCentsPerHour / 60)` with
`minutes = ceil((end - launchedAt)/60s)` and `end = terminatedAt ?? now`. -/
def spentCentsSpec (vms : List VMRecord) (email : String) (resetAfter : Option Nat) (now : Nat) : Int :=
  ((vms.filter (fun vm =>
      vm.candidateEmail == email &&
        (match resetAfter with
          | none => true
          | some r => decide (r ≤ vm.launchedAt)))).map
    (fun vm => accruedFormula vm.launchedAt (vm.terminatedAt.getD now) vm.priceCentsPerHour)).sum

/-- ASCII character lowering (emails in this system are ASCII; the source
uses `toLowerCase()`). -/
def asciiLower (c : Char) : Char :=
  if 'A' ≤ c ∧ c ≤ 'Z' then Char.ofNat (c.toNat + 32) else c

/-- ASCII string lowering, modelling `email.toLowerCase()`. -/
def strToLower (s : String) : String :=
  String.mk (s.toList.map asciiLower)

/-- `email.replace(/[^a-z0-9]/gi, "-")`: replace every non-alphanumeric ASCII
character with a dash. -/
def sanitizeEmail (email : String) : String :=
  String.mk (email.toList.map (fun c => if c.isAlphanum then c else '-'))

/-- HTTP methods used against the upstream provider API. -/
inductive HttpMethod where
  | get
  | post
  | put
  | delete
deriving DecidableEq, Repr

/-- An upstream request as issued by `lib/lambda-api.ts`: method and path
relative to the API base. -/
structure UpstreamCall where
  method : HttpMethod
  path : String
deriving DecidableEq, Repr

/-- `listFilesystems` request (`GET /file-systems`). -/
def listFilesystemsCall : UpstreamCall := { method := HttpMethod.get, path := "/file-systems" }

/-- `deleteFilesystem` request (`DELETE /file-systems/<id>`; the id is URI
encoded in the source, modelled as plain concatenation for ids without
reserved characters). -/
def deleteFilesystemCall (id : String) : UpstreamCall :=
  { method := HttpMethod.delete, path := "/file-systems/" ++ id }

/-- `createFilesystem` request as issued by the source (`POST /filesystems`). -/
def createFilesystemCall : UpstreamCall := { method := HttpMethod.post, path := "/filesystems" }

/-- Common shape of a handler result: HTTP status, optional error message,
the store after the call, and the batches of instance ids sent to the
upstream terminate operation. -/
structure HandlerOut where
  status : Nat
  errorMsg : Option String
  store : Store
  upstreamTerminates : List (List String)
deriving DecidableEq, Repr

/-- Oracle inputs for the termination-path handlers: whether the upstream
terminate call succeeds, the upstream SSH key listing (`none` models a
thrown error), and whether the upstream SSH key delete succeeds. -/
structure TerminateEnv where
  terminateOk : Bool
  listSshKeysResult : Option (List (String × String))
  deleteSshKeyOk : Bool

/-- Steps of the terminate handler after the VM record has been written:
refresh the candidate spent cache, then delete the SSH key when the
candidate has no other active VM.  `st1` is the store with the terminated
VM already written; `vm` is the VM record as read by the handler. -/
def terminateSpendRefresh (st1 : Store) (email : String) (now : Nat) : Store :=
  match getCandidate st1 email with
  | none => st1
  | some fresh =>
    putCandidate st1
      { fresh with spentCents := computeSpentCents st1.vms email fresh.spentResetAt now }

def terminateKeyCleanup (st2 : Store) (vm : VMRecord) (env : TerminateEnv) : Store :=
  let candidateVMs := listVMsByEmail st2 vm.candidateEmail
  let hasActiveVMs := candidateVMs.any (fun v => !(v.instanceId == vm.instanceId) && v.terminatedAt.isNone)
  if hasActiveVMs then st2
  else
    match env.listSshKeysResult with
    | none => st2
    | some keys =>
      let key := keys.find? (fun k => k.2 == vm.sshKeyName)
      if key.isSome ∧ ¬ env.deleteSshKeyOk then st2
      else deleteSshKeyRecord st2 vm.candidateEmail vm.sshKeyName

def terminateFinishStore (st1 : Store) (vm : VMRecord) (env : TerminateEnv) (now : Nat) : Store :=
  terminateKeyCleanup (terminateSpendRefresh st1 vm.candidateEmail now) vm env

/-- The `POST /api/vms/terminate` handler (`vm-terminate.mts`), for an
authenticated caller.  `body` is the parsed `instanceId` field. -/
def vmTerminate (st : Store) (caller : CandidateRecord) (body : Option String)
    (env : TerminateEnv) (now : Nat) : HandlerOut :=
  match body with
  | none => { status := 400, errorMsg := some "Missing instanceId", store := st, upstreamTerminates := [] }
  | some iid =>
    match getVM st iid with
    | none => { status := 404, errorMsg := some "VM not found", store := st, upstreamTerminates := [] }
    | some vm =>
      if caller.role ≠ Role.admin ∧ vm.candidateEmail ≠ caller.email then
        { status := 403, errorMsg := some "Forbidden", store := st, upstreamTerminates := [] }
      else if vm.terminatedAt.isSome then
        { status := 400, errorMsg := some "VM already terminated", store := st, upstreamTerminates := [] }
      else if ¬ env.terminateOk then
        { status := 500, errorMsg := some "Terminate failed", store := st, upstreamTerminates := [[vm.instanceId]] }
      else
        let vm' : VMRecord :=
          { vm with
            status := "terminated"
            terminatedAt := some now
            terminationReason := some (if caller.role = Role.admin then "admin_terminated" else "user_terminated")
            lastCheckedAt := now
            accruedCents := accruedFormula vm.launchedAt now vm.priceCentsPerHour }
        { status := 200, errorMsg := none
          store := terminateFinishStore (putVM st vm') vm env now
          upstreamTerminates := [[vm.instanceId]] }

/-- The `POST /api/launch-requests/cancel` handler
(`launch-request-cancel.mts`), for an authenticated caller.  `body` is the
parsed `id` field. -/
def launchRequestCancel (st : Store) (caller : CandidateRecord) (body : Option String)
    (now : Nat) : HandlerOut :=
  match body with
  | none => { status := 400, errorMsg := some "Missing id", store := st, upstreamTerminates := [] }
  | some rid =>
    match getLaunchRequest st rid with
    | none => { status := 404, errorMsg := some "Launch request not found", store := st, upstreamTerminates := [] }
    | some lr =>
      if caller.role ≠ Role.admin ∧ lr.candidateEmail ≠ caller.email then
        { status := 403, errorMsg := some "Forbidden", store := st, upstreamTerminates := [] }
      else if lr.status ≠ LRStatus.queued then
        { status := 400, errorMsg := some "Cannot cancel", store := st, upstreamTerminates := [] }
      else
        { status := 200, errorMsg := none
          store := putLaunchRequest st { lr with status := LRStatus.cancelled, cancelledAt := some now }
          upstreamTerminates := [] }

/-- `claimSeedingLock` from `lib/blobs.ts`: attempt to claim seeding rights
for a filesystem and region.  Returns whether this caller won the claim,
plus the store after the call. -/
def claimSeedingLock (st : Store) (filesystemName region instanceId : String)
    (staleMinutes : Nat) (now : Nat) : Bool × Store :=
  let blocked :=
    match getSeedStatus st filesystemName region with
    | none => false
    | some existing =>
      if existing.status = SeedSt.ready then true
      else (now : Int) - (existing.claimedAt : Int) < (staleMinutes : Int) * 60 * 1000
  if blocked then (false, st)
  else
    (true, putSeedStatus st
      { filesystemName := filesystemName
        region := region
        status := SeedSt.seeding
        seedingInstanceId := some instanceId
        claimedAt := now
        completedAt := none })

/-- The `POST /api/seed-complete` handler (`seed-complete.mts`).  `token` is
the bearer token from the Authorization header (`none` when absent) and
`body` the parsed `{filesystemName, region}` pair. -/
def seedComplete (st : Store) (token : Option String) (body : Option (String × String))
    (now : Nat) : HandlerOut :=
  match token with
  | none => { status := 401, errorMsg := some "Unauthorized", store := st, upstreamTerminates := [] }
  | some t =>
    match (getSettings st).bind (fun s => s.seedCompleteSecret) with
    | none => { status := 401, errorMsg := some "Unauthorized", store := st, upstreamTerminates := [] }
    | some secret =>
      if secret = "" ∨ t ≠ secret then
        { status := 401, errorMsg := some "Unauthorized", store := st, upstreamTerminates := [] }
      else
        match body with
        | none => { status := 400, errorMsg := some "Invalid JSON body", store := st, upstreamTerminates := [] }
        | some (fsName, region) =>
          if fsName = "" ∨ region = "" then
            { status := 400, errorMsg := some "Missing filesystemName or region", store := st, upstreamTerminates := [] }
          else
            match getSeedStatus st fsName region with
            | none => { status := 404, errorMsg := some "No seed status found", store := st, upstreamTerminates := [] }
            | some ss =>
              if ss.status = SeedSt.ready then
                { status := 200, errorMsg := none, store := st, upstreamTerminates := [] }
              else
                { status := 200, errorMsg := none
                  store := putSeedStatus st { ss with status := SeedSt.ready, completedAt := some now }
                  upstreamTerminates := [] }

/-- The `DELETE /api/admin/candidates?email=` branch of
`admin-candidates.mts`, for an authenticated admin caller. -/
def adminCandidatesDelete (st : Store) (admin : CandidateRecord) (emailQ : Option String)
    (env : TerminateEnv) (now : Nat) : HandlerOut :=
  match emailQ with
  | none => { status := 400, errorMsg := some "Missing email query parameter", store := st, upstreamTerminates := [] }
  | some e =>
    let el := strToLower e
    match getCandidate st el with
    | none => { status := 404, errorMsg := some "Candidate not found", store := st, upstreamTerminates := [] }
    | some existing =>
      if existing.deactivatedAt.isSome then
        { status := 400, errorMsg := some "Candidate is already deactivated", store := st, upstreamTerminates := [] }
      else if existing.email = admin.email then
        { status := 400, errorMsg := some "Cannot delete your own account", store := st, upstreamTerminates := [] }
      else
        let activeVMs := (listVMsByEmail st el).filter (fun vm => vm.terminatedAt.isNone)
        let calls := if activeVMs.isEmpty then ([] : List (List String)) else [activeVMs.map (fun vm => vm.instanceId)]
        let st1 := activeVMs.foldl
          (fun acc vm =>
            putVM acc
              { vm with
                status := "terminated"
                terminatedAt := some now
                terminationReason := some "account_removed"
                accruedCents := accruedFormula vm.launchedAt now vm.priceCentsPerHour })
          st
        let keyName := "web-" ++ sanitizeEmail el
        let st2 : Store :=
          match env.listSshKeysResult with
          | none => st1
          | some keys =>
            let key := keys.find? (fun k => k.2 == keyName)
            if key.isSome ∧ ¬ env.deleteSshKeyOk then st1
            else deleteSshKeyRecord st1 el keyName
        let st3 := (st2.launchRequests.filter (fun lr => lr.candidateEmail == el)).foldl
          (fun acc lr =>
            if lr.status = LRStatus.queued ∨ lr.status = LRStatus.provisioning then
              putLaunchRequest acc
                { lr with
                  status := LRStatus.cancelled
                  cancelledAt := some now
                  failureReason := some "candidate_deactivated" }
            else acc)
          st2
        let st4 := putCandidate st3 { existing with deactivatedAt := some now, quotaDollars := 0 }
        { status := 200, errorMsg := none, store := st4, upstreamTerminates := calls }

/-- An instance as returned by the upstream `GET /instances` listing. -/
structure LiveInstance where
  id : String
  status : String
  ip : Option String
deriving DecidableEq, Repr

/-- Upstream data for one instance type: price and the regions that
currently have capacity. -/
structure InstanceTypeData where
  priceCentsPerHour : Nat
  description : String
  regionsWithCapacity : List String
deriving DecidableEq, Repr

/-- Parameters of an upstream launch call (the `user_data` script text is
not modelled). -/
structure LaunchParams where
  instanceTypeName : String
  regionName : String
  sshKeyNames : List String
  fileSystemNames : List String
deriving DecidableEq, Repr

/-- Outcome of an upstream `addSshKey` call. -/
inductive AddKeyOutcome where
  | ok
  | alreadyInUse
  | err
deriving DecidableEq, Repr

/-- An upstream filesystem record as returned by `listFilesystems`. -/
structure FsRecord where
  id : String
  name : String
  region : String
deriving DecidableEq, Repr

/-- Oracle inputs for one reconciler tick: the clock and the responses of
every upstream call.  A `none` result models a thrown error.  The
environment is stable: repeated calls within the tick see the same data. -/
structure TickEnv where
  now : Nat
  listInstancesResult : Option (List LiveInstance)
  instanceTypesResult : Option (List (String × InstanceTypeData))
  terminateOk : Bool
  listSshKeysResult : Option (List (String × String))
  deleteSshKeyOk : Bool
  addSshKeyOutcome : String → String → AddKeyOutcome
  listFilesystemsResult : Option (List FsRecord)
  createFsResult : String → String → Option String
  launchResult : LaunchParams → Option String
  claimId : String → String → String

/-- `new Map(instances.map(i => [i.id, ...]))`: later duplicates win. -/
def mapLookupLast (l : List LiveInstance) (id : String) : Option LiveInstance :=
  l.foldl (fun acc i => if i.id == id then some i else acc) none

/-- `Map.set` semantics for an association list accumulating integer sums. -/
def bumpAssoc (l : List (String × Int)) (k : String) (d : Int) : List (String × Int) :=
  if l.any (fun p => p.1 == k) then l.map (fun p => if p.1 == k then (p.1, p.2 + d) else p)
  else l ++ [(k, d)]

/-- `Map.set` semantics for a string-valued association list. -/
def setAssoc (l : List (String × String)) (k v : String) : List (String × String) :=
  if l.any (fun p => p.1 == k) then l.map (fun p => if p.1 == k then (p.1, v) else p)
  else l ++ [(k, v)]

def lookupAssoc (l : List (String × Int)) (k : String) : Option Int :=
  (l.find? (fun p => p.1 == k)).map (fun p => p.2)

/-- First-occurrence deduplication with a seen accumulator. -/
def dedupFirstAux (seen : List String) : List String → List String
  | [] => []
  | e :: rest =>
    if seen.contains e then dedupFirstAux seen rest
    else e :: dedupFirstAux (seen ++ [e]) rest

/-- First-occurrence deduplication, matching `Set` insertion order. -/
def dedupFirst (l : List String) : List String := dedupFirstAux [] l

/-- Stable insertion sort by a natural-number key, matching the output of
JavaScript stable `Array.prototype.sort` with a numeric comparator. -/
def insertByKey {α : Type} (key : α → Nat) (x : α) : List α → List α
  | [] => [x]
  | y :: ys => if key y ≤ key x then y :: insertByKey key x ys else x :: y :: ys

def sortByKey {α : Type} (key : α → Nat) : List α → List α
  | [] => []
  | x :: xs => insertByKey key x (sortByKey key xs)

/-- Collapse every run of two or more dashes into a single dash, as the
global regex replace in the source does when building a personal
filesystem name. -/
def collapseDashes (s : String) : String :=
  String.mk (s.toList.foldr
    (fun c acc =>
      match acc with
      | [] => [c]
      | d :: _ => if c = '-' ∧ d = '-' then acc else c :: acc)
    [])

/-- Result of the filesystem resolver.  Loader VM entries are
`(filesystemName, region)` pairs; the generated seed-script text is not
modelled.  `readonlyMounts` holds the filesystem names for which a
read-only remount command is appended. -/
structure ResolvedFilesystems where
  fileSystemNames : List String
  loaderVMs : List (String × String)
  readonlyMounts : List String
deriving DecidableEq, Repr

/-- One step of the shared-filesystem loop of `resolveFilesystems`. -/
def resolveSharedStep (env : TickEnv) (existing : List FsRecord) (region : String)
    (acc : ResolvedFilesystems × Store) (dfs : DefaultFilesystem) :
    ResolvedFilesystems × Store :=
  let (res, st) := acc
  match existing.find? (fun f => f.name == dfs.name && f.region == region) with
  | some m =>
    let names := if res.fileSystemNames.contains m.name then res.fileSystemNames
                 else res.fileSystemNames ++ [m.name]
    ({ res with fileSystemNames := names, readonlyMounts := res.readonlyMounts ++ [dfs.name] }, st)
  | none =>
    match env.createFsResult dfs.name region with
    | none => acc
    | some created =>
      let cid := env.claimId dfs.name region
      let claimRes := claimSeedingLock st dfs.name region cid 60 env.now
      let loaders := if claimRes.1 then res.loaderVMs ++ [(dfs.name, region)] else res.loaderVMs
      ({ fileSystemNames := res.fileSystemNames ++ [created]
         loaderVMs := loaders
         readonlyMounts := res.readonlyMounts ++ [dfs.name] }, claimRes.2)

/-- `resolveFilesystems` from `lib/filesystem-resolver.ts`.  Returns `none`
when the upstream filesystem listing throws. -/
def resolveFilesystems (st : Store) (env : TickEnv) (region email : String)
    (attach : Bool) (settings : Option AdminSettings) :
    Option (ResolvedFilesystems × Store) :=
  match env.listFilesystemsResult with
  | none => none
  | some existing =>
    let personal : List String :=
      if attach then
        let fsName := (collapseDashes ("fs-" ++ sanitizeEmail email ++ "-" ++ region)).take 60
        match existing.find? (fun f => f.name == fsName && f.region == region) with
        | some m => [m.name]
        | none =>
          match env.createFsResult fsName region with
          | some created => [created]
          | none => []
      else []
    let init : ResolvedFilesystems × Store :=
      ({ fileSystemNames := personal, loaderVMs := [], readonlyMounts := [] }, st)
    let dfsList := (settings.bind (fun s => s.defaultFilesystems)).getD []
    some (dfsList.foldl (resolveSharedStep env existing region) init)

/-- Pass A, VM-sync loop (section 1, first loop of the reconciler in
`admin-seed-status.mts`): sync one active VM against the live listing,
update its accrued cost, and record the per-candidate delta.  The
accumulator carries the store, the `candidateUpdates` map and the
`terminatedKeys` map. -/
def syncDead (now : Nat)
    (acc : Store × List (String × Int) × List (String × String)) (vm : VMRecord) :
    Store × List (String × Int) × List (String × String) :=
  let (st, cu, tk) := acc
  let acc' := accruedFormula vm.launchedAt now vm.priceCentsPerHour
  let vm' : VMRecord :=
    { vm with
      accruedCents := acc'
      status := "terminated"
      terminatedAt := some now
      terminationReason := some "terminated_externally"
      lastCheckedAt := now }
  let st1 := putVM st vm'
  let tk1 := setAssoc tk vm.candidateEmail vm.sshKeyName
  -- the source looks the previous value up in the already-mutated `vms`
  -- array, so `prevAccrued` is the freshly written accrued value
  let prevAccrued := ((getVM st1 vm.instanceId).map (fun v => v.accruedCents)).getD 0
  let delta := acc' - prevAccrued
  let cu1 := if delta > 0 then bumpAssoc cu vm.candidateEmail delta else cu
  (st1, cu1, tk1)

/-- The refreshed record written by the alive branch of the sync loop. -/
def syncAliveRecord (l : LiveInstance) (now : Nat) (vm : VMRecord) : VMRecord :=
  let ip' := match l.ip with
    | some s => if s = "" then vm.ipAddress else some s
    | none => vm.ipAddress
  { vm with
    ipAddress := ip'
    status := l.status
    accruedCents := accruedFormula vm.launchedAt now vm.priceCentsPerHour
    lastCheckedAt := now }

def syncAlive (l : LiveInstance) (now : Nat)
    (acc : Store × List (String × Int) × List (String × String)) (vm : VMRecord) :
    Store × List (String × Int) × List (String × String) :=
  let (st, cu, tk) := acc
  let acc' := accruedFormula vm.launchedAt now vm.priceCentsPerHour
  let prevAccrued := vm.accruedCents
  let delta := acc' - prevAccrued
  let cu1 := if delta > 0 then bumpAssoc cu vm.candidateEmail delta else cu
  (putVM st (syncAliveRecord l now vm), cu1, tk)

def syncVM (live : List LiveInstance) (now : Nat)
    (acc : Store × List (String × Int) × List (String × String)) (vm : VMRecord) :
    Store × List (String × Int) × List (String × String) :=
  match mapLookupLast live vm.instanceId with
  | none => syncDead now acc vm
  | some l => if l.status == "terminated" then syncDead now acc vm else syncAlive l now acc vm

/-- A VM record marked terminated by quota or account enforcement. -/
def killedRecord (reason : String) (now : Nat) (vm : VMRecord) : VMRecord :=
  { vm with terminatedAt := some now, terminationReason := some reason, status := "terminated" }

/-- Terminate one VM during quota or account enforcement (pass A, loop 2):
push its id (if new) onto `toTerminate` and mark the record. -/
def killVM (reason : String) (now : Nat)
    (acc : Store × List String × List (String × String)) (vm : VMRecord) :
    Store × List String × List (String × String) :=
  let (st, toTerm, tk) := acc
  if toTerm.contains vm.instanceId then acc
  else
    (putVM st (killedRecord reason now vm), toTerm ++ [vm.instanceId],
      setAssoc tk vm.candidateEmail vm.sshKeyName)

/-- Pass A, loop 2 (quota and account enforcement) for one candidate email.
`activeIds` are the instance ids that were active at the start of the tick;
`cu` is the candidate-updates map produced by the sync loop. -/
def enforceCandidate (activeIds : List String) (cu : List (String × Int)) (now : Nat)
    (acc : Store × List String × List (String × String)) (email : String) :
    Store × List String × List (String × String) :=
  let (st, toTerm, tk) := acc
  let currentActive := st.vms.filter
    (fun v => activeIds.contains v.instanceId && v.candidateEmail == email && v.terminatedAt.isNone)
  match getCandidate st email with
  | none => currentActive.foldl (killVM "account_removed" now) acc
  | some cand =>
    if cand.deactivatedAt.isSome then currentActive.foldl (killVM "account_removed" now) acc
    else
      let added := (lookupAssoc cu email).getD 0
      let cand1 := if added > 0 then { cand with spentCents := cand.spentCents + added } else cand
      let st1 := if added > 0 then putCandidate st cand1 else st
      if cand1.role = Role.candidate ∧ cand1.spentCents ≥ (cand1.quotaDollars : Int) * 100 then
        currentActive.foldl (killVM "quota_exceeded" now) (st1, toTerm, tk)
      else (st1, toTerm, tk)

/-- SSH-key cleanup at the end of pass A: for every entry of
`terminatedKeys` whose candidate has no remaining active VM, delete the
upstream key and the local SSH-key record.  A failing upstream listing or
delete is caught and skips the local delete. -/
def sshCleanupStep (env : TickEnv) (st : Store) (p : String × String) : Store :=
  let hasActive := (listVMsByEmail st p.1).any (fun v => v.terminatedAt.isNone)
  if hasActive then st
  else
    match env.listSshKeysResult with
    | none => st
    | some keys =>
      let key := keys.find? (fun k => k.2 == p.2)
      if key.isSome ∧ ¬ env.deleteSshKeyOk then st
      else deleteSshKeyRecord st p.1 p.2

def sshCleanup (env : TickEnv) (st : Store) (tk : List (String × String)) : Store :=
  tk.foldl (sshCleanupStep env) st

/-- Pass A of the reconciler (section 1 of `admin-seed-status.mts`): VM sync,
cost accrual, quota and account enforcement, SSH-key cleanup.  Returns
`none` when there are active VMs and the upstream instance listing throws
(the tick then aborts with a 500).  Otherwise returns the store, the
`toTerminate` batch, the candidate-updates map and the terminated-keys map. -/
def passA (st : Store) (env : TickEnv) :
    Option (Store × List String × List (String × Int) × List (String × String)) :=
  let active := st.vms.filter (fun v => v.terminatedAt.isNone)
  if active.isEmpty then some (st, [], [], [])
  else
    match env.listInstancesResult with
    | none => none
    | some live =>
      let (st1, cu, tk) := active.foldl (syncVM live env.now) (st, [], [])
      let emails := dedupFirst (active.map (fun v => v.candidateEmail))
      let activeIds := active.map (fun v => v.instanceId)
      let (st2, toTerm, tk2) := emails.foldl (enforceCandidate activeIds cu env.now) (st1, [], tk)
      let st3 := sshCleanup env st2 tk2
      some (st3, toTerm, cu, tk2)

/-- Find the first `(type, region)` pair of the request with upstream
capacity, in caller-supplied order.  Returns the matched type, region and
its price. -/
def findMatchRegion (td : InstanceTypeData) : List String → Option String
  | [] => none
  | r :: rs => if td.regionsWithCapacity.contains r then some r else findMatchRegion td rs

def findMatch (types : List (String × InstanceTypeData)) :
    List String → List String → Option (String × String × Nat)
  | [], _ => none
  | t :: ts, regions =>
    match (types.find? (fun p => p.1 == t)).map (fun p => p.2) with
    | none => findMatch types ts regions
    | some td =>
      match findMatchRegion td regions with
      | some r => some (t, r, td.priceCentsPerHour)
      | none => findMatch types ts regions

/-- Accumulator of pass B: the store plus the log of upstream launch calls
issued so far. -/
structure BState where
  store : Store
  launchCalls : List LaunchParams
deriving DecidableEq, Repr

/-- Process one queued launch request (section 2 of the reconciler). -/
def processRequest (env : TickEnv) (types : List (String × InstanceTypeData))
    (acc : BState) (lr : LaunchRequest) : BState :=
  let st := acc.store
  match getCandidate st lr.candidateEmail with
  | none =>
    { acc with
      store := putLaunchRequest st
        { lr with
          status := LRStatus.cancelled
          cancelledAt := some env.now
          failureReason := some "candidate_deactivated" } }
  | some cand =>
    if cand.deactivatedAt.isSome then
      { acc with
        store := putLaunchRequest st
          { lr with
            status := LRStatus.cancelled
            cancelledAt := some env.now
            failureReason := some "candidate_deactivated" } }
    else if cand.role = Role.candidate ∧
        (listVMsByEmail st lr.candidateEmail).any (fun v => v.terminatedAt.isNone) then
      acc
    else
      match findMatch types lr.instanceTypes lr.regions with
      | none =>
        { acc with
          store := putLaunchRequest st
            { lr with attempts := lr.attempts + 1, lastAttemptAt := some env.now } }
      | some (mt, mr, price) =>
        if cand.role = Role.candidate ∧
            (cand.quotaDollars : Int) * 100 -
              computeSpentCents st.vms lr.candidateEmail cand.spentResetAt env.now < (price : Int) then
          { acc with
            store := putLaunchRequest st
              { lr with status := LRStatus.failed, failureReason := some "insufficient_quota" } }
        else
          let lr2 : LaunchRequest :=
            { lr with
              status := LRStatus.provisioning
              lastAttemptAt := some env.now
              attempts := lr.attempts + 1 }
          let st1 := putLaunchRequest st lr2
          let keyName := "web-" ++ sanitizeEmail cand.email
          match env.listSshKeysResult with
          | none =>
            { acc with store := putLaunchRequest st1 { lr2 with status := LRStatus.queued } }
          | some keys =>
            let keyExists := keys.any (fun k => k.2 == keyName)
            let outcome := if keyExists then AddKeyOutcome.ok
                           else env.addSshKeyOutcome keyName lr.sshPublicKey
            if outcome = AddKeyOutcome.err then
              { acc with store := putLaunchRequest st1 { lr2 with status := LRStatus.queued } }
            else
              let st2 : Store :=
                if outcome = AddKeyOutcome.ok then
                  match getSshKey st1 cand.email keyName with
                  | some r =>
                    if r.publicKey == lr.sshPublicKey then st1
                    else putSshKey st1
                      { keyName := keyName, candidateEmail := cand.email
                        publicKey := lr.sshPublicKey, registeredAt := env.now }
                  | none =>
                    putSshKey st1
                      { keyName := keyName, candidateEmail := cand.email
                        publicKey := lr.sshPublicKey, registeredAt := env.now }
                else st1
              match resolveFilesystems st2 env mr cand.email lr.attachFilesystem (getSettings st2) with
              | none =>
                { acc with store := putLaunchRequest st2 { lr2 with status := LRStatus.queued } }
              | some (res, st3) =>
                let loaderStep := fun (p : List LaunchParams) (loader : String × String) =>
                  let withCapacity := types.filter (fun q => q.2.regionsWithCapacity.contains loader.2)
                  let sorted := sortByKey (fun q => q.2.priceCentsPerHour) withCapacity
                  match sorted.head? with
                  | some q =>
                    p ++ [{ instanceTypeName := q.1, regionName := loader.2
                            sshKeyNames := [keyName], fileSystemNames := [loader.1] }]
                  | none => p
                let calls1 := res.loaderVMs.foldl loaderStep acc.launchCalls
                let params : LaunchParams :=
                  { instanceTypeName := mt, regionName := mr
                    sshKeyNames := [keyName], fileSystemNames := res.fileSystemNames }
                match env.launchResult params with
                | none =>
                  { store := putLaunchRequest st3 { lr2 with status := LRStatus.queued }
                    launchCalls := calls1 ++ [params] }
                | some iid =>
                  let vmRec : VMRecord :=
                    { instanceId := iid, candidateEmail := cand.email
                      instanceType := mt, region := mr, priceCentsPerHour := price
                      launchedAt := env.now, status := "launching"
                      ipAddress := none, jupyterUrl := none, sshKeyName := keyName
                      terminatedAt := none, terminationReason := none
                      lastCheckedAt := env.now, accruedCents := 0 }
                  let st4 := putVM st3 vmRec
                  let st5 := putLaunchRequest st4
                    { lr2 with
                      status := LRStatus.fulfilled
                      fulfilledAt := some env.now
                      fulfilledInstanceId := some iid }
                  { store := st5, launchCalls := calls1 ++ [params] }

/-- Pass B of the reconciler (section 2): process queued launch requests,
oldest first.  The boolean is `true` when the pass ran to its end; it is
`false` when the handler returned early because the queue was empty or the
instance-type fetch failed (in which case section 3 is never reached). -/
def passB (st : Store) (env : TickEnv) : BState × Bool :=
  let queued := st.launchRequests.filter (fun lr => decide (lr.status = LRStatus.queued))
  if queued.isEmpty then ({ store := st, launchCalls := [] }, false)
  else
    match env.instanceTypesResult with
    | none => ({ store := st, launchCalls := [] }, false)
    | some types =>
      let sorted := sortByKey (fun lr => lr.createdAt) queued
      (sorted.foldl (processRequest env types) { store := st, launchCalls := [] }, true)

/-- Pass C of the reconciler (section 3): delete every `seeding` seed-status
record whose claim is older than 60 minutes. -/
def passC (st : Store) (now : Nat) : Store :=
  { st with
    seedStatuses := st.seedStatuses.filter
      (fun ss => !(decide (ss.status = SeedSt.seeding) &&
                   decide ((now : Int) - (ss.claimedAt : Int) > 3600000))) }

/-- Result of one reconciler tick: scheduled-function HTTP status, the
store, the ids sent in the batched upstream terminate call of pass A
(empty when no call was issued), and the upstream launch calls of pass B. -/
structure TickOut where
  httpStatus : Nat
  store : Store
  upstreamTerminated : List String
  launchCalls : List LaunchParams
deriving DecidableEq, Repr

/-- One full reconciler tick (the scheduled cleanup function of
`admin-seed-status.mts`): pass A, then pass B, then — only when pass B did
not return early — pass C. -/
def tick (st : Store) (env : TickEnv) : TickOut :=
  match passA st env with
  | none =>
    { httpStatus := 500, store := st, upstreamTerminated := [], launchCalls := [] }
  | some (st1, toTerm, _cu, _tk) =>
    let (b, reachedEnd) := passB st1 env
    if reachedEnd then
      { httpStatus := 200, store := passC b.store env.now
        upstreamTerminated := toTerm, launchCalls := b.launchCalls }
    else
      { httpStatus := 200, store := b.store
        upstreamTerminated := toTerm, launchCalls := b.launchCalls }

/-- The candidate-updates map produced by the VM-sync loop of pass A. -/
def passACandidateUpdates (st : Store) (live : List LiveInstance) (now : Nat) :
    List (String × Int) :=
  ((st.vms.filter (fun v => v.terminatedAt.isNone)).foldl (syncVM live now) (st, [], [])).2.1

/-- The stored spent cents of a candidate right after pass A's accrual step
(the source adds the aggregated delta only when it is positive). -/
def spentAfterAccrual (st : Store) (live : List LiveInstance) (now : Nat)
    (c : CandidateRecord) : Int :=
  let added := (lookupAssoc (passACandidateUpdates st live now) c.email).getD 0
  if added > 0 then c.spentCents + added else c.spentCents

/-- The upstream listing still reports this instance, and not as terminated. -/
def upstreamAlive (live : List LiveInstance) (id : String) : Prop :=
  ∃ l, mapLookupLast live id = some l ∧ (l.status == "terminated") = false

/-! ### Concrete inputs used by per-claim witnesses -/

/-- Witness VM for claim C2: bob's active VM, accrued cost already written. -/
def c2vm : VMRecord :=
  { instanceId := "i-2", candidateEmail := "bob@ex.com"
    instanceType := "gpu_1x_a10", region := "us-east-1"
    priceCentsPerHour := 200, launchedAt := 0, status := "active"
    ipAddress := some "1.2.3.4", jupyterUrl := none, sshKeyName := "web-bob-ex-com"
    terminatedAt := none, terminationReason := none
    lastCheckedAt := 1800000, accruedCents := 104 }

/-- Witness candidate for claim C2: over the one-dollar quota. -/
def c2cand : CandidateRecord :=
  { email := "bob@ex.com", name := "Bob", role := Role.candidate
    quotaDollars := 1, spentCents := 104, addedAt := 0, addedBy := "admin@example.org"
    spentResetAt := none, deactivatedAt := none }

/-- Witness store for claim C2. -/
def c2store : Store :=
  { candidates := [c2cand], vms := [c2vm], sshKeys := []
    launchRequests := [], seedStatuses := [], settings := none }

/-- Witness upstream listing for claim C2: the instance is still running. -/
def c2live : List LiveInstance :=
  [{ id := "i-2", status := "active", ip := some "1.2.3.4" }]

/-- Witness tick environment for claim C2. -/
def c2env : TickEnv :=
  { now := 1860000
    listInstancesResult := some c2live
    instanceTypesResult := none
    terminateOk := true
    listSshKeysResult := none
    deleteSshKeyOk := true
    addSshKeyOutcome := fun _ _ => AddKeyOutcome.err
    listFilesystemsResult := none
    createFsResult := fun _ _ => none
    launchResult := fun _ => none
    claimId := fun _ _ => "pending-0" }

/-- Witness VM for claim C1. -/
def c1vm : VMRecord :=
  { instanceId := "i-1", candidateEmail := "alice@example.org"
    instanceType := "gpu_1x_a100", region := "us-west-1"
    priceCentsPerHour := 110, launchedAt := 10000, status := "active"
    ipAddress := none, jupyterUrl := none, sshKeyName := "web-alice-example-org"
    terminatedAt := none, terminationReason := none
    lastCheckedAt := 10000, accruedCents := 0 }

/-- Witness caller for claim C1. -/
def c1caller : CandidateRecord :=
  { email := "alice@example.org", name := "Alice", role := Role.candidate
    quotaDollars := 50, spentCents := 0, addedAt := 0, addedBy := "admin@example.org"
    spentResetAt := none, deactivatedAt := none }

/-- Witness store for claim C1. -/
def c1store : Store :=
  { candidates := [c1caller], vms := [c1vm], sshKeys := []
    launchRequests := [], seedStatuses := [], settings := none }

/-- Witness environment for claim C1. -/
def c1env : TerminateEnv :=
  { terminateOk := true, listSshKeysResult := some [], deleteSshKeyOk := true }

/-- Witness VM for claim C4: already terminated. -/
def c4vm : VMRecord :=
  { instanceId := "i-4", candidateEmail := "bob@ex.com"
    instanceType := "gpu_1x_a10", region := "us-east-1"
    priceCentsPerHour := 200, launchedAt := 0, status := "terminated"
    ipAddress := none, jupyterUrl := none, sshKeyName := "web-bob-ex-com"
    terminatedAt := some 1860000, terminationReason := some "user_terminated"
    lastCheckedAt := 1860000, accruedCents := 104 }

/-- Witness caller for claim C4. -/
def c4caller : CandidateRecord :=
  { email := "bob@ex.com", name := "Bob", role := Role.candidate
    quotaDollars := 1, spentCents := 104, addedAt := 0, addedBy := "admin@example.org"
    spentResetAt := none, deactivatedAt := none }

/-- Witness store for claim C4. -/
def c4store : Store :=
  { candidates := [c4caller], vms := [c4vm], sshKeys := []
    launchRequests := [], seedStatuses := [], settings := none }

/-- Witness launch request for claim C5 (queued). -/
def c5lrQueued : LaunchRequest :=
  { id := "lr-1", candidateEmail := "alice@example.org"
    instanceTypes := ["gpu_1x_a100"], regions := ["us-west-1"]
    sshPublicKey := "ssh-ed25519 AAAA", attachFilesystem := false
    status := LRStatus.queued, createdAt := 1000
    fulfilledAt := none, fulfilledInstanceId := none, failureReason := none
    cancelledAt := none, attempts := 0, lastAttemptAt := none }

/-- Witness launch request for claim C5 (fulfilled, hence terminal). -/
def c5lrDone : LaunchRequest :=
  { id := "lr-2", candidateEmail := "alice@example.org"
    instanceTypes := ["gpu_1x_a100"], regions := ["us-west-1"]
    sshPublicKey := "ssh-ed25519 AAAA", attachFilesystem := false
    status := LRStatus.fulfilled, createdAt := 500
    fulfilledAt := some 600, fulfilledInstanceId := some "i-1", failureReason := none
    cancelledAt := none, attempts := 1, lastAttemptAt := some 600 }

/-- Witness store for claim C5. -/
def c5store : Store :=
  { candidates := [c1caller], vms := [], sshKeys := []
    launchRequests := [c5lrQueued, c5lrDone], seedStatuses := [], settings := none }

/-- Witness stale seeding record for claim C6. -/
def c6stale : SeedStatusRecord :=
  { filesystemName := "shared-data", region := "us-east-1", status := SeedSt.seeding
    seedingInstanceId := some "pending-1", claimedAt := 0, completedAt := none }

/-- Witness store for claim C6: one stale seeding claim. -/
def c6store : Store :=
  { candidates := [], vms := [], sshKeys := []
    launchRequests := [], seedStatuses := [c6stale], settings := none }

/-- Witness seeding record for claim C7. -/
def c7seeding : SeedStatusRecord :=
  { filesystemName := "shared-data", region := "us-east-1", status := SeedSt.seeding
    seedingInstanceId := some "pending-1", claimedAt := 1000, completedAt := none }

/-- Witness settings for claim C7. -/
def c7settings : AdminSettings :=
  { lambdaApiKey := none, setupScript := none, defaultFilesystems := none
    seedCompleteSecret := some "s3cret" }

/-- Witness store for claim C7. -/
def c7store : Store :=
  { candidates := [], vms := [], sshKeys := []
    launchRequests := [], seedStatuses := [c7seeding], settings := some c7settings }

/-- Failing-input VM for claim C3: active locally, accrued 50 cents so far. -/
def c3vm : VMRecord :=
  { instanceId := "i-3", candidateEmail := "alice@example.org"
    instanceType := "gpu_1x_a100", region := "us-west-1"
    priceCentsPerHour := 200, launchedAt := 0, status := "active"
    ipAddress := none, jupyterUrl := none, sshKeyName := "web-alice-example-org"
    terminatedAt := none, terminationReason := none
    lastCheckedAt := 900000, accruedCents := 50 }

/-- Failing-input candidate for claim C3: spent cache consistent with the
recorded accrual (50 cents) before the tick. -/
def c3cand : CandidateRecord :=
  { email := "alice@example.org", name := "Alice", role := Role.candidate
    quotaDollars := 50, spentCents := 50, addedAt := 0, addedBy := "admin@example.org"
    spentResetAt := none, deactivatedAt := none }

/-- Failing-input store for claim C3. -/
def c3store : Store :=
  { candidates := [c3cand], vms := [c3vm], sshKeys := []
    launchRequests := [], seedStatuses := [], settings := none }

/-- Failing-input tick environment for claim C3: 31 minutes in, the upstream
listing no longer reports the instance. -/
def c3env : TickEnv :=
  { now := 1860000
    listInstancesResult := some []
    instanceTypesResult := none
    terminateOk := true
    listSshKeysResult := none
    deleteSshKeyOk := true
    addSshKeyOutcome := fun _ _ => AddKeyOutcome.err
    listFilesystemsResult := none
    createFsResult := fun _ _ => none
    launchResult := fun _ => none
    claimId := fun _ _ => "pending-0" }

/-- Failing-input stale seed claim for claim C8. -/
def c8stale : SeedStatusRecord :=
  { filesystemName := "shared-data", region := "us-east-1", status := SeedSt.seeding
    seedingInstanceId := some "pending-1", claimedAt := 0, completedAt := none }

/-- Failing-input store for claim C8: a two-hour-old seeding claim and an
empty launch queue. -/
def c8store : Store :=
  { candidates := [], vms := [], sshKeys := []
    launchRequests := [], seedStatuses := [c8stale], settings := none }

/-- Failing-input tick environment for claim C8. -/
def c8env : TickEnv :=
  { now := 7200000
    listInstancesResult := some []
    instanceTypesResult := some []
    terminateOk := true
    listSshKeysResult := none
    deleteSshKeyOk := true
    addSshKeyOutcome := fun _ _ => AddKeyOutcome.err
    listFilesystemsResult := none
    createFsResult := fun _ _ => none
    launchResult := fun _ => none
    claimId := fun _ _ => "pending-0" }

/-- Witness admin for claim C10. -/
def c10admin : CandidateRecord :=
  { email := "root@example.org", name := "Root", role := Role.admin
    quotaDollars := 9999, spentCents := 0, addedAt := 0, addedBy := "system"
    spentResetAt := none, deactivatedAt := none }

/-- Witness store for claim C10. -/
def c10store : Store :=
  { candidates := [c10admin], vms := [], sshKeys := []
    launchRequests := [], seedStatuses := [], settings := none }

/-! ### Store lemmas -/

theorem find?_replace_self {α : Type} (keyOf : α → String) (x : α) :
    ∀ l : List α, l.any (fun y => keyOf y == keyOf x) = true →
      (l.map (fun y => if keyOf y == keyOf x then x else y)).find?
        (fun y => keyOf y == keyOf x) = some x
  | [], h => by simp at h
  | y :: ys, h => by
    by_cases hy : (keyOf y == keyOf x) = true
    · rw [List.map_cons, if_pos hy, List.find?_cons_of_pos _ (by simp)]
    · rw [List.map_cons, if_neg hy, List.find?_cons_of_neg _ (by simpa using hy)]
      apply find?_replace_self keyOf x ys
      have h' := h
      simp only [List.any_cons, Bool.or_eq_true] at h'
      rcases h' with h1 | h2
      · exact absurd h1 hy
      · exact h2

theorem find?_append_single {α : Type} (p : α → Bool) (x : α) (hx : p x = true) :
    ∀ l : List α, (∀ a ∈ l, p a = false) → (l ++ [x]).find? p = some x
  | [], _ => by simp [List.find?, hx]
  | y :: ys, h => by
    rw [List.cons_append, List.find?_cons_of_neg _ (by simp [h y (by simp)])]
    exact find?_append_single p x hx ys (fun a ha => h a (by simp [ha]))

theorem getByKey_putByKey_self {α : Type} (keyOf : α → String) (l : List α) (x : α) :
    getByKey keyOf (putByKey keyOf l x) (keyOf x) = some x := by
  unfold putByKey getByKey
  split
  next hany => exact find?_replace_self keyOf x l hany
  next hany =>
    apply find?_append_single _ x (by simp)
    intro a ha
    cases hpa : keyOf a == keyOf x
    · rfl
    · exact absurd (by rw [List.any_eq_true]; exact ⟨a, ha, hpa⟩) hany

theorem find?_replace_other {α : Type} (keyOf : α → String) (x : α) (k : String)
    (h : keyOf x ≠ k) :
    ∀ l : List α,
      (l.map (fun y => if keyOf y == keyOf x then x else y)).find? (fun y => keyOf y == k)
        = l.find? (fun y => keyOf y == k)
  | [] => rfl
  | y :: ys => by
    by_cases hy : (keyOf y == keyOf x) = true
    · have hyx : keyOf y = keyOf x := by simpa using hy
      have hyk : (keyOf y == k) = false := by simp [hyx, h]
      have hxk : (keyOf x == k) = false := by simp [h]
      rw [List.map_cons, if_pos hy, List.find?_cons_of_neg _ (by simp [hxk]),
        List.find?_cons_of_neg _ (by simp [hyk])]
      exact find?_replace_other keyOf x k h ys
    · rw [List.map_cons, if_neg hy]
      cases hyk : keyOf y == k
      · rw [List.find?_cons, List.find?_cons, hyk]
        exact find?_replace_other keyOf x k h ys
      · rw [List.find?_cons, List.find?_cons, hyk]

theorem find?_append_single_skip {α : Type} (p : α → Bool) (x : α) (hx : p x = false) :
    ∀ l : List α, (l ++ [x]).find? p = l.find? p
  | [] => by simp [List.find?, hx]
  | y :: ys => by
    cases hy : p y
    · rw [List.cons_append, List.find?_cons_of_neg _ (by simp [hy]),
        List.find?_cons_of_neg _ (by simp [hy])]
      exact find?_append_single_skip p x hx ys
    · rw [List.cons_append, List.find?_cons_of_pos _ hy, List.find?_cons_of_pos _ hy]

theorem getByKey_putByKey_ne {α : Type} (keyOf : α → String) (l : List α) (x : α)
    (k : String) (h : keyOf x ≠ k) :
    getByKey keyOf (putByKey keyOf l x) k = getByKey keyOf l k := by
  unfold putByKey getByKey
  split
  · exact find?_replace_other keyOf x k h l
  · exact find?_append_single_skip _ x (by simp [h]) l

theorem terminateSpendRefresh_vms (s : Store) (email : String) (now : Nat) :
    (terminateSpendRefresh s email now).vms = s.vms := by
  unfold terminateSpendRefresh
  split <;> rfl

theorem terminateKeyCleanup_vms (s : Store) (vm : VMRecord) (env : TerminateEnv) :
    (terminateKeyCleanup s vm env).vms = s.vms := by
  unfold terminateKeyCleanup
  dsimp only
  repeat' split
  all_goals rfl

theorem getVM_terminateFinishStore (s : Store) (vm : VMRecord) (env : TerminateEnv)
    (now : Nat) (i : String) :
    getVM (terminateFinishStore s vm env now) i = getVM s i := by
  unfold getVM terminateFinishStore
  rw [terminateKeyCleanup_vms, terminateSpendRefresh_vms]

/-! ### Claim C1: cost accrual -/

theorem spent_foldl (c now : Nat) (l : List VMRecord) :
    ∀ a : Int,
      l.foldl
        (fun total vm =>
          if vm.launchedAt < c then total
          else total + accruedFormula vm.launchedAt (vm.terminatedAt.getD now) vm.priceCentsPerHour)
        a
      = a + ((l.filter (fun vm => decide (c ≤ vm.launchedAt))).map
          (fun vm => accruedFormula vm.launchedAt (vm.terminatedAt.getD now) vm.priceCentsPerHour)).sum := by
  induction l with
  | nil => intro a; simp
  | cons vm tl ih =>
    intro a
    rw [List.foldl_cons, List.filter_cons]
    by_cases h : vm.launchedAt < c
    · have hd : decide (c ≤ vm.launchedAt) = false := by simp [Nat.not_le.mpr h]
      rw [if_pos h, hd, ih a]
      simp
    · have hd : decide (c ≤ vm.launchedAt) = true := by simp [Nat.le_of_not_lt h]
      rw [if_neg h, hd, ih _]
      simp only [if_true, List.map_cons, List.sum_cons]
      ring

/-- C1: for every candidate email and set of VM records, `computeSpentCents`
returns exactly the sum, over the candidate VMs whose `launchedAt` is at or
after `resetAfter` (all VMs when `resetAfter` is unset), of
`ceil(minutes * priceCentsPerHour / 60)` with
`minutes = ceil((end - launchedAt)/60s)` and `end = terminatedAt ?? now`;
and the final `accruedCents` written by user-initiated termination equals
the same formula for that VM (its `terminatedAt` is the end time used). -/
theorem computeSpentCents_correct :
    (∀ (vms : List VMRecord) (email : String) (resetAfter : Option Nat) (now : Nat),
      computeSpentCents vms email resetAfter now = spentCentsSpec vms email resetAfter now) ∧
    (∀ (st : Store) (caller : CandidateRecord) (iid : String) (env : TerminateEnv) (now : Nat)
      (vm : VMRecord), getVM st iid = some vm →
      (caller.role = Role.admin ∨ vm.candidateEmail = caller.email) →
      vm.terminatedAt = none → env.terminateOk = true →
      ∃ r, getVM (vmTerminate st caller (some iid) env now).store iid = some r ∧
        r.terminatedAt = some now ∧
        r.accruedCents = accruedFormula vm.launchedAt now vm.priceCentsPerHour) := by
  constructor
  · intro vms email resetAfter now
    unfold computeSpentCents spentCentsSpec
    rw [spent_foldl, List.filter_filter, zero_add]
    refine congrArg List.sum (congrArg (List.map _) (List.filter_congr ?_))
    intro a _
    cases resetAfter with
    | none => simp
    | some r => simp [Bool.and_comm]
  · intro st caller iid env now vm hget hauth hterm hok
    have hkey : vm.instanceId = iid := by
      have := List.find?_some hget
      simpa using this
    have hauth' : ¬ (caller.role ≠ Role.admin ∧ vm.candidateEmail ≠ caller.email) := by
      rcases hauth with h | h
      · intro hc; exact hc.1 h
      · intro hc; exact hc.2 h
    have hterm' : ¬ vm.terminatedAt.isSome = true := by simp [hterm]
    simp only [vmTerminate, hget]
    rw [if_neg hauth', if_neg hterm', if_neg (by simp [hok])]
    refine ⟨{ vm with
        status := "terminated"
        terminatedAt := some now
        terminationReason := some (if caller.role = Role.admin then "admin_terminated" else "user_terminated")
        lastCheckedAt := now
        accruedCents := accruedFormula vm.launchedAt now vm.priceCentsPerHour }, ?_, rfl, rfl⟩
    show getVM (terminateFinishStore _ _ _ _) iid = _
    rw [getVM_terminateFinishStore]
    show getByKey VMRecord.instanceId (putByKey VMRecord.instanceId st.vms _) iid = _
    rw [← hkey]
    exact getByKey_putByKey_self VMRecord.instanceId st.vms _

/-- Witness for C1: both parts applied at a concrete store, VM and clock. -/
theorem computeSpentCents_correct_witness :
    computeSpentCents [c1vm] "alice@example.org" (some 5) 3600000 =
      spentCentsSpec [c1vm] "alice@example.org" (some 5) 3600000 ∧
    (∃ r, getVM (vmTerminate c1store c1caller (some "i-1") c1env 3600000).store "i-1" = some r ∧
      r.terminatedAt = some 3600000 ∧
      r.accruedCents = accruedFormula c1vm.launchedAt 3600000 c1vm.priceCentsPerHour) :=
  ⟨computeSpentCents_correct.1 [c1vm] "alice@example.org" (some 5) 3600000,
   computeSpentCents_correct.2 c1store c1caller "i-1" c1env 3600000 c1vm (by decide)
     (by decide) (by decide) (by decide)⟩

/-! ### Claim C4: termination is idempotent -/

/-- C4: for a VM record with `terminatedAt` set, the terminate handler
returns HTTP 400 with an error message and performs no writes: the store is
returned unchanged and no upstream terminate call is issued. -/
theorem vmTerminate_already_terminated (st : Store) (caller : CandidateRecord) (iid : String)
    (env : TerminateEnv) (now : Nat) (vm : VMRecord)
    (hget : getVM st iid = some vm)
    (hauth : caller.role = Role.admin ∨ vm.candidateEmail = caller.email)
    (hterm : vm.terminatedAt ≠ none) :
    vmTerminate st caller (some iid) env now =
      { status := 400, errorMsg := some "VM already terminated", store := st,
        upstreamTerminates := [] } := by
  have hauth' : ¬ (caller.role ≠ Role.admin ∧ vm.candidateEmail ≠ caller.email) := by
    rcases hauth with h | h
    · intro hc; exact hc.1 h
    · intro hc; exact hc.2 h
  have hterm' : vm.terminatedAt.isSome = true := by
    cases h : vm.terminatedAt with
    | none => exact absurd h hterm
    | some t => rfl
  simp only [vmTerminate, hget]
  rw [if_neg hauth', if_pos hterm']

/-- Witness for C4: the already-terminated VM of `c4store`. -/
theorem vmTerminate_already_terminated_witness :
    vmTerminate c4store c4caller (some "i-4") c1env 3700000 =
      { status := 400, errorMsg := some "VM already terminated", store := c4store,
        upstreamTerminates := [] } :=
  vmTerminate_already_terminated c4store c4caller "i-4" c1env 3700000 c4vm
    (by decide) (by decide) (by decide)

/-! ### Claim C5: cancel only from queued -/

/-- C5: for an existing launch request and an authorized caller (owner or
admin), the cancel handler transitions the stored record to `cancelled`
with `cancelledAt` set exactly when the current status is `queued`; for a
request in any other status it returns HTTP 400 and leaves the store
unchanged, so a terminal request is never mutated by cancel. -/
theorem launchRequestCancel_queued_only (st : Store) (caller : CandidateRecord)
    (rid : String) (now : Nat) (lr : LaunchRequest)
    (hget : getLaunchRequest st rid = some lr)
    (hauth : caller.role = Role.admin ∨ lr.candidateEmail = caller.email) :
    (((launchRequestCancel st caller (some rid) now).status = 200 ∧
      getLaunchRequest (launchRequestCancel st caller (some rid) now).store rid =
        some { lr with status := LRStatus.cancelled, cancelledAt := some now })
      ↔ lr.status = LRStatus.queued) ∧
    (lr.status ≠ LRStatus.queued →
      launchRequestCancel st caller (some rid) now =
        { status := 400, errorMsg := some "Cannot cancel", store := st,
          upstreamTerminates := [] }) := by
  have hauth' : ¬ (caller.role ≠ Role.admin ∧ lr.candidateEmail ≠ caller.email) := by
    rcases hauth with h | h
    · intro hc; exact hc.1 h
    · intro hc; exact hc.2 h
  have hkey : lr.id = rid := by
    have := List.find?_some hget
    simpa using this
  by_cases hq : lr.status = LRStatus.queued
  · constructor
    · rw [iff_true_intro hq, iff_true]
      simp only [launchRequestCancel, hget]
      rw [if_neg hauth', if_neg (by simp [hq])]
      refine ⟨rfl, ?_⟩
      show getLaunchRequest (putLaunchRequest st _) rid = _
      unfold getLaunchRequest putLaunchRequest
      show getByKey LaunchRequest.id (putByKey LaunchRequest.id st.launchRequests _) rid = _
      rw [← hkey]
      exact getByKey_putByKey_self LaunchRequest.id st.launchRequests _
    · intro hne; exact absurd hq hne
  · constructor
    · have : launchRequestCancel st caller (some rid) now =
          { status := 400, errorMsg := some "Cannot cancel", store := st,
            upstreamTerminates := [] } := by
        simp only [launchRequestCancel, hget]
        rw [if_neg hauth', if_pos hq]
      rw [this]
      simp [hq]
    · intro _
      simp only [launchRequestCancel, hget]
      rw [if_neg hauth', if_pos hq]

/-- Witness for C5: both directions at the concrete store `c5store` — the
queued request is cancellable, the fulfilled one draws a 400 and no write. -/
theorem launchRequestCancel_queued_only_witness :
    ((((launchRequestCancel c5store c1caller (some "lr-1") 2000).status = 200 ∧
      getLaunchRequest (launchRequestCancel c5store c1caller (some "lr-1") 2000).store "lr-1" =
        some { c5lrQueued with status := LRStatus.cancelled, cancelledAt := some 2000 })
      ↔ c5lrQueued.status = LRStatus.queued)) ∧
    (c5lrDone.status ≠ LRStatus.queued →
      launchRequestCancel c5store c1caller (some "lr-2") 2000 =
        { status := 400, errorMsg := some "Cannot cancel", store := c5store,
          upstreamTerminates := [] }) :=
  ⟨(launchRequestCancel_queued_only c5store c1caller "lr-1" 2000 c5lrQueued
      (by decide) (by decide)).1,
   (launchRequestCancel_queued_only c5store c1caller "lr-2" 2000 c5lrDone
      (by decide) (by decide)).2⟩

/-! ### Claim C6: the seeding lock -/

/-- C6: `claimSeedingLock` returns `false` and writes nothing when the
existing record is `ready`, or is `seeding` with a claim younger than
`staleMinutes`; in every other case (no record, or a `seeding` record at
least `staleMinutes` old) it writes a `seeding` record carrying the caller
id and `claimedAt = now`, and returns `true`. -/
theorem claimSeedingLock_spec (st : Store) (name region iid : String)
    (staleMinutes now : Nat) :
    (∀ ex, getSeedStatus st name region = some ex → ex.status = SeedSt.ready →
      claimSeedingLock st name region iid staleMinutes now = (false, st)) ∧
    (∀ ex, getSeedStatus st name region = some ex → ex.status = SeedSt.seeding →
      (now : Int) - (ex.claimedAt : Int) < (staleMinutes : Int) * 60 * 1000 →
      claimSeedingLock st name region iid staleMinutes now = (false, st)) ∧
    ((getSeedStatus st name region = none ∨
      ∃ ex, getSeedStatus st name region = some ex ∧ ex.status = SeedSt.seeding ∧
        (staleMinutes : Int) * 60 * 1000 ≤ (now : Int) - (ex.claimedAt : Int)) →
      claimSeedingLock st name region iid staleMinutes now =
        (true, putSeedStatus st
          { filesystemName := name, region := region, status := SeedSt.seeding
            seedingInstanceId := some iid, claimedAt := now, completedAt := none })) := by
  refine ⟨?_, ?_, ?_⟩
  · intro ex hss hready
    simp [claimSeedingLock, hss, hready]
  · intro ex hss hst hyoung
    simp [claimSeedingLock, hss, hst, hyoung]
  · intro h
    rcases h with h | ⟨ex, hss, hst, hstale⟩
    · simp [claimSeedingLock, h]
    · have hnl : ¬ ((now : Int) - (ex.claimedAt : Int) < (staleMinutes : Int) * 60 * 1000) :=
        not_lt.mpr hstale
      simp [claimSeedingLock, hss, hst, hnl]

/-- Witness for C6: the sixty-minute-stale claim of `c6store` is overridden
two hours later. -/
theorem claimSeedingLock_spec_witness :
    claimSeedingLock c6store "shared-data" "us-east-1" "pending-2" 60 7200000 =
      (true, putSeedStatus c6store
        { filesystemName := "shared-data", region := "us-east-1", status := SeedSt.seeding
          seedingInstanceId := some "pending-2", claimedAt := 7200000, completedAt := none }) :=
  (claimSeedingLock_spec c6store "shared-data" "us-east-1" "pending-2" 60 7200000).2.2
    (Or.inr ⟨c6stale, by decide, by decide, by decide⟩)

/-! ### Claim C7: seed completion is idempotent -/

/-- C7: with the correct bearer secret and an existing seed-status record,
the seed-complete handler transitions a `seeding` record to `ready` with
`completedAt` set, is idempotent (a second identical call returns HTTP 200
and leaves the store unchanged), and never moves a `ready` record out of
`ready`, whatever the request. -/
theorem seedComplete_spec (st : Store) (secret name region : String)
    (now1 now2 : Nat) (ss : SeedStatusRecord)
    (hsec : (getSettings st).bind (fun s => s.seedCompleteSecret) = some secret)
    (hne : secret ≠ "") (hname : name ≠ "") (hregion : region ≠ "")
    (hss : getSeedStatus st name region = some ss) :
    (ss.status = SeedSt.seeding →
      seedComplete st (some secret) (some (name, region)) now1 =
        { status := 200, errorMsg := none
          store := putSeedStatus st { ss with status := SeedSt.ready, completedAt := some now1 }
          upstreamTerminates := [] }) ∧
    (ss.status = SeedSt.ready →
      seedComplete st (some secret) (some (name, region)) now1 =
        { status := 200, errorMsg := none, store := st, upstreamTerminates := [] }) ∧
    (seedComplete (seedComplete st (some secret) (some (name, region)) now1).store
        (some secret) (some (name, region)) now2 =
      { status := 200, errorMsg := none
        store := (seedComplete st (some secret) (some (name, region)) now1).store
        upstreamTerminates := [] }) ∧
    (∀ (tok : Option String) (body : Option (String × String)) (n : Nat),
      ss.status = SeedSt.ready →
      getSeedStatus (seedComplete st tok body n).store name region = some ss) := by
  have hkeyss : seedStatusKey ss.filesystemName ss.region = seedStatusKey name region := by
    have := List.find?_some hss
    simpa using this
  have hsecne : ¬ (secret = "" ∨ secret ≠ secret) := by simp [hne]
  have hbodyne : ¬ (name = "" ∨ region = "") := by simp [hname, hregion]
  have hA : ∀ nw : Nat, ss.status = SeedSt.seeding →
      seedComplete st (some secret) (some (name, region)) nw =
        { status := 200, errorMsg := none
          store := putSeedStatus st { ss with status := SeedSt.ready, completedAt := some nw }
          upstreamTerminates := [] } := by
    intro nw hseeding
    simp only [seedComplete, hsec]
    rw [if_neg hsecne, if_neg hbodyne, hss]
    simp [hseeding]
  have hB : ∀ nw : Nat, ss.status = SeedSt.ready →
      seedComplete st (some secret) (some (name, region)) nw =
        { status := 200, errorMsg := none, store := st, upstreamTerminates := [] } := by
    intro nw hready
    simp only [seedComplete, hsec]
    rw [if_neg hsecne, if_neg hbodyne, hss]
    simp [hready]
  refine ⟨hA now1, hB now1, ?_, ?_⟩
  · cases hstatus : ss.status with
    | ready =>
      rw [hB now1 hstatus]
      exact hB now2 hstatus
    | seeding =>
      rw [hA now1 hstatus]
      dsimp only
      have hsec1 : (getSettings (putSeedStatus st { ss with status := SeedSt.ready, completedAt := some now1 })).bind
          (fun s => s.seedCompleteSecret) = some secret := hsec
      have hss1 : getSeedStatus (putSeedStatus st { ss with status := SeedSt.ready, completedAt := some now1 })
          name region = some { ss with status := SeedSt.ready, completedAt := some now1 } := by
        unfold getSeedStatus putSeedStatus
        show getByKey _ (putByKey _ st.seedStatuses _) (seedStatusKey name region) = _
        rw [← hkeyss]
        exact getByKey_putByKey_self _ st.seedStatuses _
      simp only [seedComplete, hsec1]
      rw [if_neg hsecne, if_neg hbodyne, hss1]
      simp
  · intro tok body n hready
    cases tok with
    | none => exact hss
    | some t =>
      simp only [seedComplete]
      cases hset : (getSettings st).bind (fun s => s.seedCompleteSecret) with
      | none => exact hss
      | some sec =>
        dsimp only
        by_cases hsv : sec = "" ∨ t ≠ sec
        · rw [if_pos hsv]
          exact hss
        · rw [if_neg hsv]
          cases body with
          | none => exact hss
          | some p =>
            obtain ⟨bn, br⟩ := p
            dsimp only
            by_cases hbv : bn = "" ∨ br = ""
            · rw [if_pos hbv]
              exact hss
            · rw [if_neg hbv]
              cases hfound : getSeedStatus st bn br with
              | none => exact hss
              | some ss2 =>
                dsimp only
                by_cases hk : seedStatusKey bn br = seedStatusKey name region
                · have hsame : getSeedStatus st bn br = getSeedStatus st name region := by
                    unfold getSeedStatus
                    rw [hk]
                  rw [hsame, hss] at hfound
                  have hss2 : ss = ss2 := by injection hfound
                  rw [if_pos (hss2 ▸ hready)]
                  exact hss
                · by_cases hr2 : ss2.status = SeedSt.ready
                  · rw [if_pos hr2]
                    exact hss
                  · rw [if_neg hr2]
                    have hkey2 : seedStatusKey ss2.filesystemName ss2.region = seedStatusKey bn br := by
                      have := List.find?_some hfound
                      simpa using this
                    show getSeedStatus (putSeedStatus st _) name region = some ss
                    unfold getSeedStatus putSeedStatus
                    show getByKey _ (putByKey _ st.seedStatuses _) (seedStatusKey name region) = _
                    rw [getByKey_putByKey_ne]
                    · exact hss
                    · show seedStatusKey ss2.filesystemName ss2.region ≠ seedStatusKey name region
                      rw [hkey2]
                      exact hk

/-- Witness for C7: the seeding record of `c7store` transitions to `ready`
at the first call. -/
theorem seedComplete_spec_witness :
    seedComplete c7store (some "s3cret") (some ("shared-data", "us-east-1")) 5000 =
      { status := 200, errorMsg := none
        store := putSeedStatus c7store
          { c7seeding with status := SeedSt.ready, completedAt := some 5000 }
        upstreamTerminates := [] } :=
  (seedComplete_spec c7store "s3cret" "shared-data" "us-east-1" 5000 6000 c7seeding
    (by decide) (by decide) (by decide) (by decide) (by decide)).1 (by decide)

/-! ### Reconciler helper lemmas -/

theorem foldl_preserves {α β : Type} (f : β → α → β) (P : β → Prop) :
    ∀ (l : List α) (b : β), (∀ a ∈ l, ∀ x, P x → P (f x a)) → P b → P (l.foldl f b)
  | [], _, _, hb => hb
  | a :: tl, b, hstep, hb =>
    foldl_preserves f P tl (f b a)
      (fun a' ha' x hx => hstep a' (List.mem_cons_of_mem _ ha') x hx)
      (hstep a (List.mem_cons_self _ _) b hb)

theorem putByKey_map_keys {α : Type} (keyOf : α → String) (l : List α) (x : α) :
    (putByKey keyOf l x).map keyOf = l.map keyOf ∨
    ((putByKey keyOf l x).map keyOf = l.map keyOf ++ [keyOf x] ∧ keyOf x ∉ l.map keyOf) := by
  unfold putByKey
  split
  next hany =>
    left
    rw [List.map_map]
    apply List.map_congr_left
    intro a _
    by_cases h : (keyOf a == keyOf x) = true
    · have hax : keyOf a = keyOf x := by simpa using h
      show keyOf (if keyOf a == keyOf x then x else a) = keyOf a
      rw [if_pos h, hax]
    · show keyOf (if keyOf a == keyOf x then x else a) = keyOf a
      rw [if_neg h]
  next hany =>
    right
    refine ⟨List.map_append _ _ _, ?_⟩
    intro hmem
    obtain ⟨y, hy, hky⟩ := List.mem_map.mp hmem
    apply hany
    rw [List.any_eq_true]
    refine ⟨y, hy, ?_⟩
    simp [hky]

theorem putByKey_keysNodup {α : Type} (keyOf : α → String) (l : List α) (x : α)
    (h : (l.map keyOf).Nodup) : ((putByKey keyOf l x).map keyOf).Nodup := by
  rcases putByKey_map_keys keyOf l x with heq | ⟨heq, hnotin⟩
  · rw [heq]; exact h
  · rw [heq, List.nodup_append]
    refine ⟨h, List.nodup_singleton _, ?_⟩
    intro a ha hb
    rw [List.mem_singleton] at hb
    exact hnotin (hb ▸ ha)

theorem find?_eq_of_keysNodup {α : Type} (keyOf : α → String) :
    ∀ (l : List α) (k : String) (x y : α), (l.map keyOf).Nodup →
      l.find? (fun z => keyOf z == k) = some x → y ∈ l → keyOf y = k → y = x := by
  intro l
  induction l with
  | nil => intro k x y _ hf hy; cases hy
  | cons h t ih =>
    intro k x y hnd hf hy hky
    rw [List.map_cons, List.nodup_cons] at hnd
    cases hb : (keyOf h == k) with
    | true =>
      simp only [List.find?_cons, hb] at hf
      have hx : h = x := by injection hf
      cases hy with
      | head => exact hx
      | tail _ hyt =>
        exfalso
        apply hnd.1
        have hhk : keyOf h = k := by simpa using hb
        rw [hhk, ← hky]
        exact List.mem_map_of_mem keyOf hyt
    | false =>
      simp only [List.find?_cons, hb] at hf
      cases hy with
      | head =>
        exfalso
        rw [hky] at hb
        simp at hb
      | tail _ hyt => exact ih k x y hnd.2 hf hyt hky

theorem getVM_putVM_self (s : Store) (w : VMRecord) :
    getVM (putVM s w) w.instanceId = some w :=
  getByKey_putByKey_self VMRecord.instanceId s.vms w

theorem getVM_putVM_ne (s : Store) (w : VMRecord) (i : String) (h : w.instanceId ≠ i) :
    getVM (putVM s w) i = getVM s i :=
  getByKey_putByKey_ne VMRecord.instanceId s.vms w i h

theorem getCandidate_putCandidate_ne (s : Store) (w : CandidateRecord) (e : String)
    (h : w.email ≠ e) : getCandidate (putCandidate s w) e = getCandidate s e :=
  getByKey_putByKey_ne CandidateRecord.email s.candidates w e h

theorem mem_of_getVM (s : Store) (i : String) (r : VMRecord) (h : getVM s i = some r) :
    r ∈ s.vms :=
  List.mem_of_find?_eq_some h

theorem getVM_key (s : Store) (i : String) (r : VMRecord) (h : getVM s i = some r) :
    r.instanceId = i := by
  have := List.find?_some h
  simpa using this

theorem getCandidate_key (s : Store) (e : String) (r : CandidateRecord)
    (h : getCandidate s e = some r) : r.email = e := by
  have := List.find?_some h
  simpa using this

theorem contains_iff_mem (l : List String) (x : String) :
    l.contains x = true ↔ x ∈ l := by
  simp

theorem contains_eq_false_iff (l : List String) (x : String) :
    l.contains x = false ↔ x ∉ l := by
  cases h : l.contains x with
  | true => simp [(contains_iff_mem l x).mp h]
  | false =>
    have : x ∉ l := fun hm => by
      rw [(contains_iff_mem l x).mpr hm] at h
      cases h
    simp [this]

theorem mem_dedupFirstAux (x : String) :
    ∀ (l seen : List String),
      x ∈ dedupFirstAux seen l ↔ x ∈ l ∧ seen.contains x = false := by
  intro l
  induction l with
  | nil => intro seen; simp [dedupFirstAux]
  | cons e rest ih =>
    intro seen
    unfold dedupFirstAux
    by_cases hc : seen.contains e = true
    · rw [if_pos hc, ih]
      constructor
      · rintro ⟨hr, hs⟩; exact ⟨List.mem_cons_of_mem _ hr, hs⟩
      · rintro ⟨hm, hs⟩
        cases List.mem_cons.mp hm with
        | inl heq => rw [heq] at hs; rw [hs] at hc; cases hc
        | inr hr => exact ⟨hr, hs⟩
    · rw [if_neg hc, List.mem_cons, ih]
      constructor
      · rintro (heq | ⟨hr, hs⟩)
        · refine ⟨heq ▸ List.mem_cons_self _ _, ?_⟩
          rw [heq]
          simpa using hc
        · constructor
          · exact List.mem_cons_of_mem _ hr
          · rw [contains_eq_false_iff] at hs ⊢
            intro hmem
            exact hs (by simp [hmem])
      · rintro ⟨hm, hs⟩
        by_cases hxe : x = e
        · exact Or.inl hxe
        · right
          cases List.mem_cons.mp hm with
          | inl h => exact absurd h hxe
          | inr hr =>
            refine ⟨hr, ?_⟩
            rw [contains_eq_false_iff] at hs ⊢
            intro hmem
            rcases List.mem_append.mp hmem with h | h
            · exact hs h
            · simp only [List.mem_singleton] at h
              exact hxe h

theorem mem_dedupFirst (x : String) (l : List String) : x ∈ dedupFirst l ↔ x ∈ l := by
  unfold dedupFirst
  rw [mem_dedupFirstAux]
  simp

theorem nodup_dedupFirstAux : ∀ (l seen : List String), (dedupFirstAux seen l).Nodup := by
  intro l
  induction l with
  | nil => intro seen; simp [dedupFirstAux]
  | cons e rest ih =>
    intro seen
    unfold dedupFirstAux
    by_cases hc : seen.contains e = true
    · rw [if_pos hc]; exact ih seen
    · rw [if_neg hc, List.nodup_cons]
      refine ⟨?_, ih _⟩
      intro hmem
      rw [mem_dedupFirstAux] at hmem
      rw [contains_eq_false_iff] at hmem
      exact hmem.2 (by simp)

theorem nodup_dedupFirst (l : List String) : (dedupFirst l).Nodup :=
  nodup_dedupFirstAux l []

theorem vms_putCandidate (s : Store) (c : CandidateRecord) :
    (putCandidate s c).vms = s.vms := rfl

theorem vms_putLaunchRequest (s : Store) (lr : LaunchRequest) :
    (putLaunchRequest s lr).vms = s.vms := rfl

theorem vms_putSshKey (s : Store) (k : SshKeyRecord) :
    (putSshKey s k).vms = s.vms := rfl

theorem vms_putSeedStatus (s : Store) (r : SeedStatusRecord) :
    (putSeedStatus s r).vms = s.vms := rfl

theorem vms_deleteSshKeyRecord (s : Store) (e k : String) :
    (deleteSshKeyRecord s e k).vms = s.vms := rfl

theorem vms_passC (s : Store) (now : Nat) : (passC s now).vms = s.vms := rfl

theorem candidates_putVM (s : Store) (v : VMRecord) :
    (putVM s v).candidates = s.candidates := rfl

theorem candidates_deleteSshKeyRecord (s : Store) (e k : String) :
    (deleteSshKeyRecord s e k).candidates = s.candidates := rfl

theorem claimSeedingLock_vms (st : Store) (n r i : String) (m now : Nat) :
    (claimSeedingLock st n r i m now).2.vms = st.vms := by
  unfold claimSeedingLock
  dsimp only
  split <;> rfl

theorem resolveSharedStep_vms (env : TickEnv) (ex : List FsRecord) (region : String)
    (acc : ResolvedFilesystems × Store) (dfs : DefaultFilesystem) :
    (resolveSharedStep env ex region acc dfs).2.vms = acc.2.vms := by
  obtain ⟨res, st⟩ := acc
  unfold resolveSharedStep
  dsimp only
  split
  · rfl
  · split
    · rfl
    · exact claimSeedingLock_vms _ _ _ _ _ _

theorem resolveFilesystems_vms (st : Store) (env : TickEnv) (region email : String)
    (attach : Bool) (settings : Option AdminSettings) (res : ResolvedFilesystems) (st' : Store)
    (h : resolveFilesystems st env region email attach settings = some (res, st')) :
    st'.vms = st.vms := by
  unfold resolveFilesystems at h
  cases hfs : env.listFilesystemsResult with
  | none => rw [hfs] at h; cases h
  | some existing =>
    rw [hfs] at h
    simp only [Option.some.injEq] at h
    have hfold : ∀ (l : List DefaultFilesystem) (acc : ResolvedFilesystems × Store),
        (l.foldl (resolveSharedStep env existing region) acc).2.vms = acc.2.vms := by
      intro l
      induction l with
      | nil => intro acc; rfl
      | cons d t ih =>
        intro acc
        rw [List.foldl_cons, ih, resolveSharedStep_vms]
    have := congrArg (fun p : ResolvedFilesystems × Store => p.2.vms) h
    simp only at this
    rw [← this, hfold]

theorem processRequest_getVM (env : TickEnv) (types : List (String × InstanceTypeData))
    (acc : BState) (lr : LaunchRequest) (i : String)
    (hfresh : ∀ p iid, env.launchResult p = some iid → iid ≠ i) :
    getVM (processRequest env types acc lr).store i = getVM acc.store i := by
  unfold processRequest
  dsimp only
  repeat' split
  all_goals try rfl
  all_goals
    first
      | (rename_i res st3 hres body hlaunch
         show getByKey VMRecord.instanceId st3.vms i =
           getByKey VMRecord.instanceId acc.store.vms i
         rw [resolveFilesystems_vms _ _ _ _ _ _ _ _ hres]
         repeat' split
         all_goals rfl)
      | (rename_i res st3 hres body iid hlaunch
         show getByKey VMRecord.instanceId (putByKey VMRecord.instanceId st3.vms _) i =
           getByKey VMRecord.instanceId acc.store.vms i
         rw [getByKey_putByKey_ne _ _ _ _ (hfresh _ _ hlaunch)]
         rw [resolveFilesystems_vms _ _ _ _ _ _ _ _ hres]
         repeat' split
         all_goals rfl)

theorem passB_getVM (st : Store) (env : TickEnv) (i : String)
    (hfresh : ∀ p iid, env.launchResult p = some iid → iid ≠ i) :
    getVM (passB st env).1.store i = getVM st i := by
  unfold passB
  dsimp only
  by_cases hq : (st.launchRequests.filter (fun lr => decide (lr.status = LRStatus.queued))).isEmpty = true
  · rw [if_pos hq]
  · rw [if_neg hq]
    cases env.instanceTypesResult with
    | none => rfl
    | some types =>
      apply foldl_preserves (processRequest env types)
        (fun b => getVM b.store i = getVM st i)
      · intro a _ x hx
        rw [processRequest_getVM _ _ _ _ _ hfresh, hx]
      · rfl

theorem sshCleanupStep_vms (env : TickEnv) (s : Store) (p : String × String) :
    (sshCleanupStep env s p).vms = s.vms := by
  unfold sshCleanupStep
  dsimp only
  repeat' split
  all_goals rfl

theorem sshCleanup_vms (env : TickEnv) (tk : List (String × String)) (s : Store) :
    (sshCleanup env s tk).vms = s.vms := by
  unfold sshCleanup
  apply foldl_preserves (sshCleanupStep env) (fun x => x.vms = s.vms)
  · intro p _ x hx
    rw [sshCleanupStep_vms, hx]
  · rfl

theorem syncVM_candidates (live : List LiveInstance) (now : Nat)
    (acc : Store × List (String × Int) × List (String × String)) (vm : VMRecord) :
    (syncVM live now acc vm).1.candidates = acc.1.candidates := by
  obtain ⟨s, cu, tk⟩ := acc
  unfold syncVM syncDead syncAlive
  dsimp only
  repeat' split
  all_goals rfl

theorem syncVM_getVM_ne (live : List LiveInstance) (now : Nat)
    (acc : Store × List (String × Int) × List (String × String)) (vm : VMRecord)
    (i : String) (h : vm.instanceId ≠ i) :
    getVM (syncVM live now acc vm).1 i = getVM acc.1 i := by
  obtain ⟨s, cu, tk⟩ := acc
  unfold syncVM syncDead syncAlive
  dsimp only
  repeat' split
  all_goals exact getVM_putVM_ne _ _ _ h

theorem syncVM_keysNodup (live : List LiveInstance) (now : Nat)
    (acc : Store × List (String × Int) × List (String × String)) (vm : VMRecord)
    (h : (acc.1.vms.map VMRecord.instanceId).Nodup) :
    ((syncVM live now acc vm).1.vms.map VMRecord.instanceId).Nodup := by
  obtain ⟨s, cu, tk⟩ := acc
  unfold syncVM syncDead syncAlive
  dsimp only
  repeat' split
  all_goals exact putByKey_keysNodup _ _ _ h

theorem syncVM_alive_eq (live : List LiveInstance) (now : Nat)
    (acc : Store × List (String × Int) × List (String × String)) (vm : VMRecord)
    (l : LiveInstance) (hl : mapLookupLast live vm.instanceId = some l)
    (ht : (l.status == "terminated") = false) :
    syncVM live now acc vm = syncAlive l now acc vm := by
  unfold syncVM
  rw [hl]
  dsimp only
  rw [if_neg (by simp [ht])]

theorem syncAlive_getVM (l : LiveInstance) (now : Nat)
    (acc : Store × List (String × Int) × List (String × String)) (vm : VMRecord) :
    getVM (syncAlive l now acc vm).1 vm.instanceId = some (syncAliveRecord l now vm) := by
  obtain ⟨s, cu, tk⟩ := acc
  exact getVM_putVM_self s (syncAliveRecord l now vm)

theorem loop1_getVM (live : List LiveInstance) (now : Nat) (active : List VMRecord)
    (vm : VMRecord) (l : LiveInstance)
    (hmem : vm ∈ active) (hnd : (active.map VMRecord.instanceId).Nodup)
    (hl : mapLookupLast live vm.instanceId = some l)
    (ht : (l.status == "terminated") = false)
    (acc0 : Store × List (String × Int) × List (String × String)) :
    getVM (active.foldl (syncVM live now) acc0).1 vm.instanceId =
      some (syncAliveRecord l now vm) := by
  obtain ⟨xs, ys, rfl⟩ := List.append_of_mem hmem
  have hys : vm.instanceId ∉ ys.map VMRecord.instanceId := by
    rw [List.map_append, List.map_cons, List.nodup_append] at hnd
    exact (List.nodup_cons.mp hnd.2.1).1
  rw [List.foldl_append, List.foldl_cons]
  apply foldl_preserves (syncVM live now)
    (fun b => getVM b.1 vm.instanceId = some (syncAliveRecord l now vm))
  · intro a ha x hx
    have hne : a.instanceId ≠ vm.instanceId := by
      intro heq
      exact hys (heq ▸ List.mem_map_of_mem _ ha)
    rw [syncVM_getVM_ne _ _ _ _ _ hne, hx]
  · rw [syncVM_alive_eq _ _ _ _ _ hl ht]
    exact syncAlive_getVM _ _ _ _

theorem loop1_candidates (live : List LiveInstance) (now : Nat) (active : List VMRecord)
    (acc0 : Store × List (String × Int) × List (String × String)) :
    (active.foldl (syncVM live now) acc0).1.candidates = acc0.1.candidates := by
  apply foldl_preserves (syncVM live now) (fun b => b.1.candidates = acc0.1.candidates)
  · intro a _ x hx
    rw [syncVM_candidates, hx]
  · rfl

theorem loop1_keysNodup (live : List LiveInstance) (now : Nat) (active : List VMRecord)
    (acc0 : Store × List (String × Int) × List (String × String))
    (h : (acc0.1.vms.map VMRecord.instanceId).Nodup) :
    ((active.foldl (syncVM live now) acc0).1.vms.map VMRecord.instanceId).Nodup := by
  apply foldl_preserves (syncVM live now)
    (fun b => (b.1.vms.map VMRecord.instanceId).Nodup)
  · intro a _ x hx
    exact syncVM_keysNodup _ _ _ _ hx
  · exact h

theorem killVM_candidates (reason : String) (now : Nat)
    (acc : Store × List String × List (String × String)) (r : VMRecord) :
    (killVM reason now acc r).1.candidates = acc.1.candidates := by
  obtain ⟨s, t, k⟩ := acc
  unfold killVM
  dsimp only
  split <;> rfl

theorem killVM_getVM_ne (reason : String) (now : Nat)
    (acc : Store × List String × List (String × String)) (r : VMRecord)
    (i : String) (h : r.instanceId ≠ i) :
    getVM (killVM reason now acc r).1 i = getVM acc.1 i := by
  obtain ⟨s, t, k⟩ := acc
  unfold killVM
  dsimp only
  split
  · rfl
  · exact getVM_putVM_ne _ _ _ h

theorem killVM_keysNodup (reason : String) (now : Nat)
    (acc : Store × List String × List (String × String)) (r : VMRecord)
    (h : (acc.1.vms.map VMRecord.instanceId).Nodup) :
    ((killVM reason now acc r).1.vms.map VMRecord.instanceId).Nodup := by
  obtain ⟨s, t, k⟩ := acc
  unfold killVM
  dsimp only
  split
  · exact h
  · exact putByKey_keysNodup _ _ _ h

theorem killVM_toTerm_mono (reason : String) (now : Nat)
    (acc : Store × List String × List (String × String)) (r : VMRecord)
    (x : String) (h : x ∈ acc.2.1) : x ∈ (killVM reason now acc r).2.1 := by
  obtain ⟨s, t, k⟩ := acc
  unfold killVM
  dsimp only
  split
  · exact h
  · exact List.mem_append_left _ h

theorem killVM_toTerm_notin (reason : String) (now : Nat)
    (acc : Store × List String × List (String × String)) (r : VMRecord)
    (i : String) (hne : r.instanceId ≠ i) (h : i ∉ acc.2.1) :
    i ∉ (killVM reason now acc r).2.1 := by
  obtain ⟨s, t, k⟩ := acc
  unfold killVM
  dsimp only
  split
  · exact h
  · intro hmem
    rcases List.mem_append.mp hmem with hm | hm
    · exact h hm
    · rw [List.mem_singleton] at hm
      exact hne hm.symm

theorem killVM_self (reason : String) (now : Nat)
    (acc : Store × List String × List (String × String)) (vm : VMRecord)
    (h : vm.instanceId ∉ acc.2.1) :
    getVM (killVM reason now acc vm).1 vm.instanceId = some (killedRecord reason now vm) ∧
    vm.instanceId ∈ (killVM reason now acc vm).2.1 := by
  obtain ⟨s, t, k⟩ := acc
  unfold killVM
  dsimp only
  have h' : vm.instanceId ∉ t := h
  rw [if_neg (by simpa using h')]
  exact ⟨getVM_putVM_self _ _, List.mem_append_right _ (List.mem_singleton.mpr rfl)⟩

theorem killVM_getCandidate (reason : String) (now : Nat)
    (acc : Store × List String × List (String × String)) (r : VMRecord) (e : String) :
    getCandidate (killVM reason now acc r).1 e = getCandidate acc.1 e := by
  unfold getCandidate
  rw [killVM_candidates]

theorem mem_vms_eq_of_id (s : Store) (hnd : (s.vms.map VMRecord.instanceId).Nodup)
    (R a : VMRecord) (hR : getVM s R.instanceId = some R) (ha : a ∈ s.vms)
    (hid : a.instanceId = R.instanceId) : a = R :=
  find?_eq_of_keysNodup VMRecord.instanceId s.vms R.instanceId R a hnd hR ha hid

theorem killFold_preserve (reason : String) (now : Nat) (c : CandidateRecord) (R : VMRecord)
    (la : List VMRecord) (hids : ∀ a ∈ la, a.instanceId ≠ R.instanceId)
    (b : Store × List String × List (String × String))
    (hnd : (b.1.vms.map VMRecord.instanceId).Nodup)
    (hc : getCandidate b.1 c.email = some c)
    (hR : getVM b.1 R.instanceId = some R)
    (ht : R.instanceId ∉ b.2.1) :
    ((la.foldl (killVM reason now) b).1.vms.map VMRecord.instanceId).Nodup ∧
    getCandidate (la.foldl (killVM reason now) b).1 c.email = some c ∧
    getVM (la.foldl (killVM reason now) b).1 R.instanceId = some R ∧
    R.instanceId ∉ (la.foldl (killVM reason now) b).2.1 := by
  apply foldl_preserves (killVM reason now)
    (fun x => ((x.1.vms.map VMRecord.instanceId).Nodup ∧ getCandidate x.1 c.email = some c ∧
      getVM x.1 R.instanceId = some R ∧ R.instanceId ∉ x.2.1))
  · intro a ha x hx
    refine ⟨killVM_keysNodup _ _ _ _ hx.1, ?_, ?_, ?_⟩
    · rw [killVM_getCandidate]
      exact hx.2.1
    · rw [killVM_getVM_ne _ _ _ _ _ (hids a ha)]
      exact hx.2.2.1
    · exact killVM_toTerm_notin _ _ _ _ _ (hids a ha) hx.2.2.2
  · exact ⟨hnd, hc, hR, ht⟩

theorem killFold_post (reason : String) (now : Nat) (K : VMRecord)
    (la : List VMRecord) (hids : ∀ a ∈ la, a.instanceId ≠ K.instanceId)
    (b : Store × List String × List (String × String))
    (hnd : (b.1.vms.map VMRecord.instanceId).Nodup)
    (hK : getVM b.1 K.instanceId = some K)
    (hmem : K.instanceId ∈ b.2.1) :
    ((la.foldl (killVM reason now) b).1.vms.map VMRecord.instanceId).Nodup ∧
    getVM (la.foldl (killVM reason now) b).1 K.instanceId = some K ∧
    K.instanceId ∈ (la.foldl (killVM reason now) b).2.1 := by
  apply foldl_preserves (killVM reason now)
    (fun x => ((x.1.vms.map VMRecord.instanceId).Nodup ∧
      getVM x.1 K.instanceId = some K ∧ K.instanceId ∈ x.2.1))
  · intro a ha x hx
    refine ⟨killVM_keysNodup _ _ _ _ hx.1, ?_, killVM_toTerm_mono _ _ _ _ _ hx.2.2⟩
    rw [killVM_getVM_ne _ _ _ _ _ (hids a ha)]
    exact hx.2.1
  · exact ⟨hnd, hK, hmem⟩

theorem enforceCandidate_preserve (activeIds : List String) (cu : List (String × Int))
    (now : Nat) (e' : String) (c : CandidateRecord) (R : VMRecord)
    (hre : R.candidateEmail = c.email) (hne : e' ≠ c.email)
    (b : Store × List String × List (String × String))
    (hnd : (b.1.vms.map VMRecord.instanceId).Nodup)
    (hc : getCandidate b.1 c.email = some c)
    (hR : getVM b.1 R.instanceId = some R)
    (ht : R.instanceId ∉ b.2.1) :
    (((enforceCandidate activeIds cu now b e').1.vms.map VMRecord.instanceId).Nodup ∧
    getCandidate (enforceCandidate activeIds cu now b e').1 c.email = some c ∧
    getVM (enforceCandidate activeIds cu now b e').1 R.instanceId = some R ∧
    R.instanceId ∉ (enforceCandidate activeIds cu now b e').2.1) := by
  obtain ⟨s, t, k⟩ := b
  have hids : ∀ a ∈ s.vms.filter
      (fun v => activeIds.contains v.instanceId && v.candidateEmail == e' && v.terminatedAt.isNone),
      a.instanceId ≠ R.instanceId := by
    intro a ha heq
    rw [List.mem_filter] at ha
    have haR : a = R := mem_vms_eq_of_id s hnd R a hR ha.1 heq
    have hpred := ha.2
    simp only [Bool.and_eq_true, beq_iff_eq] at hpred
    apply hne
    rw [← hpred.1.2, haR, hre]
  unfold enforceCandidate
  dsimp only
  split
  · exact killFold_preserve _ _ c R _ hids (s, t, k) hnd hc hR ht
  next cand heqc =>
    have hce : cand.email = e' := getCandidate_key s e' cand heqc
    split
    · exact killFold_preserve _ _ c R _ hids (s, t, k) hnd hc hR ht
    · by_cases hadd : ((lookupAssoc cu e').getD 0 : Int) > 0
      · rw [if_pos hadd, if_pos hadd]
        have hc1 : getCandidate (putCandidate s
            { cand with spentCents := cand.spentCents + (lookupAssoc cu e').getD 0 }) c.email =
            getCandidate s c.email := by
          apply getCandidate_putCandidate_ne
          show cand.email ≠ c.email
          rw [hce]
          exact hne
        split
        · exact killFold_preserve _ _ c R _ hids _ hnd (by rw [hc1]; exact hc) hR ht
        · exact ⟨hnd, by rw [hc1]; exact hc, hR, ht⟩
      · rw [if_neg hadd, if_neg hadd]
        split
        · exact killFold_preserve _ _ c R _ hids _ hnd hc hR ht
        · exact ⟨hnd, hc, hR, ht⟩

theorem enforceCandidate_post (activeIds : List String) (cu : List (String × Int))
    (now : Nat) (e'' : String) (K : VMRecord) (hKt : K.terminatedAt.isNone = false)
    (b : Store × List String × List (String × String))
    (hnd : (b.1.vms.map VMRecord.instanceId).Nodup)
    (hK : getVM b.1 K.instanceId = some K)
    (hmem : K.instanceId ∈ b.2.1) :
    (((enforceCandidate activeIds cu now b e'').1.vms.map VMRecord.instanceId).Nodup ∧
    getVM (enforceCandidate activeIds cu now b e'').1 K.instanceId = some K ∧
    K.instanceId ∈ (enforceCandidate activeIds cu now b e'').2.1) := by
  obtain ⟨s, t, k⟩ := b
  have hids : ∀ a ∈ s.vms.filter
      (fun v => activeIds.contains v.instanceId && v.candidateEmail == e'' && v.terminatedAt.isNone),
      a.instanceId ≠ K.instanceId := by
    intro a ha heq
    rw [List.mem_filter] at ha
    have haK : a = K := mem_vms_eq_of_id s hnd K a hK ha.1 heq
    have hpred := ha.2
    simp only [Bool.and_eq_true, beq_iff_eq] at hpred
    rw [haK, hKt] at hpred
    exact Bool.false_ne_true hpred.2
  unfold enforceCandidate
  dsimp only
  split
  · exact killFold_post _ _ K _ hids (s, t, k) hnd hK hmem
  next cand heqc =>
    split
    · exact killFold_post _ _ K _ hids (s, t, k) hnd hK hmem
    · by_cases hadd : ((lookupAssoc cu e'').getD 0 : Int) > 0
      · rw [if_pos hadd, if_pos hadd]
        split
        · exact killFold_post _ _ K _ hids _ hnd hK hmem
        · exact ⟨hnd, hK, hmem⟩
      · rw [if_neg hadd, if_neg hadd]
        split
        · exact killFold_post _ _ K _ hids _ hnd hK hmem
        · exact ⟨hnd, hK, hmem⟩

theorem enforceFold_preserve (activeIds : List String) (cu : List (String × Int)) (now : Nat)
    (c : CandidateRecord) (R : VMRecord) (hre : R.candidateEmail = c.email)
    (es : List String) (hes : ∀ e ∈ es, e ≠ c.email)
    (b : Store × List String × List (String × String))
    (hnd : (b.1.vms.map VMRecord.instanceId).Nodup)
    (hc : getCandidate b.1 c.email = some c)
    (hR : getVM b.1 R.instanceId = some R)
    (ht : R.instanceId ∉ b.2.1) :
    (((es.foldl (enforceCandidate activeIds cu now) b).1.vms.map VMRecord.instanceId).Nodup ∧
    getCandidate (es.foldl (enforceCandidate activeIds cu now) b).1 c.email = some c ∧
    getVM (es.foldl (enforceCandidate activeIds cu now) b).1 R.instanceId = some R ∧
    R.instanceId ∉ (es.foldl (enforceCandidate activeIds cu now) b).2.1) := by
  apply foldl_preserves (enforceCandidate activeIds cu now)
    (fun x => ((x.1.vms.map VMRecord.instanceId).Nodup ∧
      getCandidate x.1 c.email = some c ∧
      getVM x.1 R.instanceId = some R ∧ R.instanceId ∉ x.2.1))
  · intro e he x hx
    exact enforceCandidate_preserve activeIds cu now e c R hre (hes e he) x
      hx.1 hx.2.1 hx.2.2.1 hx.2.2.2
  · exact ⟨hnd, hc, hR, ht⟩

theorem enforceFold_post (activeIds : List String) (cu : List (String × Int)) (now : Nat)
    (K : VMRecord) (hKt : K.terminatedAt.isNone = false) (es : List String)
    (b : Store × List String × List (String × String))
    (hnd : (b.1.vms.map VMRecord.instanceId).Nodup)
    (hK : getVM b.1 K.instanceId = some K)
    (hmem : K.instanceId ∈ b.2.1) :
    (((es.foldl (enforceCandidate activeIds cu now) b).1.vms.map VMRecord.instanceId).Nodup ∧
    getVM (es.foldl (enforceCandidate activeIds cu now) b).1 K.instanceId = some K ∧
    K.instanceId ∈ (es.foldl (enforceCandidate activeIds cu now) b).2.1) := by
  apply foldl_preserves (enforceCandidate activeIds cu now)
    (fun x => ((x.1.vms.map VMRecord.instanceId).Nodup ∧
      getVM x.1 K.instanceId = some K ∧ K.instanceId ∈ x.2.1))
  · intro e _ x hx
    exact enforceCandidate_post activeIds cu now e K hKt x hx.1 hx.2.1 hx.2.2
  · exact ⟨hnd, hK, hmem⟩

theorem enforceCandidate_self (activeIds : List String) (cu : List (String × Int)) (now : Nat)
    (c : CandidateRecord) (vmA : VMRecord)
    (b : Store × List String × List (String × String))
    (hnd : (b.1.vms.map VMRecord.instanceId).Nodup)
    (hc : getCandidate b.1 c.email = some c)
    (hact : c.deactivatedAt = none) (hrole : c.role = Role.candidate)
    (hA : getVM b.1 vmA.instanceId = some vmA)
    (hAe : vmA.candidateEmail = c.email)
    (hAt : vmA.terminatedAt = none)
    (hAid : vmA.instanceId ∈ activeIds)
    (ht : vmA.instanceId ∉ b.2.1)
    (hq : (if ((lookupAssoc cu c.email).getD 0 : Int) > 0
           then c.spentCents + (lookupAssoc cu c.email).getD 0 else c.spentCents)
          ≥ (c.quotaDollars : Int) * 100) :
    (((enforceCandidate activeIds cu now b c.email).1.vms.map VMRecord.instanceId).Nodup ∧
    getVM (enforceCandidate activeIds cu now b c.email).1 vmA.instanceId =
      some (killedRecord "quota_exceeded" now vmA) ∧
    vmA.instanceId ∈ (enforceCandidate activeIds cu now b c.email).2.1) := by
  obtain ⟨s, t, k⟩ := b
  have hc' : getCandidate s c.email = some c := hc
  have hnd' : (s.vms.map VMRecord.instanceId).Nodup := hnd
  have hA' : getVM s vmA.instanceId = some vmA := hA
  have ht' : vmA.instanceId ∉ t := ht
  have hCAmem : vmA ∈ s.vms.filter
      (fun v => activeIds.contains v.instanceId && v.candidateEmail == c.email && v.terminatedAt.isNone) := by
    rw [List.mem_filter]
    refine ⟨mem_of_getVM _ _ _ hA', ?_⟩
    simp [hAe, hAt, hAid]
  have main : ∀ S : Store, S.vms = s.vms →
      (((s.vms.filter
          (fun v => activeIds.contains v.instanceId && v.candidateEmail == c.email && v.terminatedAt.isNone)).foldl
            (killVM "quota_exceeded" now) (S, t, k)).1.vms.map VMRecord.instanceId).Nodup ∧
      getVM ((s.vms.filter
          (fun v => activeIds.contains v.instanceId && v.candidateEmail == c.email && v.terminatedAt.isNone)).foldl
            (killVM "quota_exceeded" now) (S, t, k)).1 vmA.instanceId =
        some (killedRecord "quota_exceeded" now vmA) ∧
      vmA.instanceId ∈ ((s.vms.filter
          (fun v => activeIds.contains v.instanceId && v.candidateEmail == c.email && v.terminatedAt.isNone)).foldl
            (killVM "quota_exceeded" now) (S, t, k)).2.1 := by
    intro S hS
    obtain ⟨as, bs, hsplit⟩ := List.append_of_mem hCAmem
    have hCAnd : (((s.vms.filter
        (fun v => activeIds.contains v.instanceId && v.candidateEmail == c.email && v.terminatedAt.isNone)).map
          VMRecord.instanceId).Nodup) :=
      hnd'.sublist ((List.filter_sublist s.vms).map VMRecord.instanceId)
    rw [hsplit] at hCAnd ⊢
    rw [List.map_append, List.map_cons, List.nodup_append] at hCAnd
    have hbs : vmA.instanceId ∉ bs.map VMRecord.instanceId := (List.nodup_cons.mp hCAnd.2.1).1
    have has : vmA.instanceId ∉ as.map VMRecord.instanceId := by
      intro hmem
      exact hCAnd.2.2 hmem (List.mem_cons_self _ _)
    rw [List.foldl_append, List.foldl_cons]
    have hpre : (((as.foldl (killVM "quota_exceeded" now) (S, t, k)).1.vms.map VMRecord.instanceId).Nodup ∧
        getVM (as.foldl (killVM "quota_exceeded" now) (S, t, k)).1 vmA.instanceId = some vmA ∧
        vmA.instanceId ∉ (as.foldl (killVM "quota_exceeded" now) (S, t, k)).2.1) := by
      apply foldl_preserves (killVM "quota_exceeded" now)
        (fun x => ((x.1.vms.map VMRecord.instanceId).Nodup ∧
          getVM x.1 vmA.instanceId = some vmA ∧ vmA.instanceId ∉ x.2.1))
      · intro a ha x hx
        have hane : a.instanceId ≠ vmA.instanceId := by
          intro heq
          exact has (heq ▸ List.mem_map_of_mem _ ha)
        refine ⟨killVM_keysNodup _ _ _ _ hx.1, ?_, killVM_toTerm_notin _ _ _ _ _ hane hx.2.2⟩
        rw [killVM_getVM_ne _ _ _ _ _ hane]
        exact hx.2.1
      · refine ⟨?_, ?_, ht'⟩
        · show ((S.vms.map VMRecord.instanceId).Nodup)
          rw [hS]; exact hnd'
        · show getVM S vmA.instanceId = some vmA
          unfold getVM
          rw [hS]
          exact hA'
    have hstep := killVM_self "quota_exceeded" now
      (as.foldl (killVM "quota_exceeded" now) (S, t, k)) vmA hpre.2.2
    have hstepnd := killVM_keysNodup "quota_exceeded" now
      (as.foldl (killVM "quota_exceeded" now) (S, t, k)) vmA hpre.1
    exact killFold_post "quota_exceeded" now (killedRecord "quota_exceeded" now vmA) bs
      (fun a ha heq => hbs (heq ▸ List.mem_map_of_mem _ ha)) _ hstepnd hstep.1 hstep.2
  unfold enforceCandidate
  dsimp only
  rw [hc']
  dsimp only
  rw [if_neg (by simp [hact])]
  by_cases hadd : ((lookupAssoc cu c.email).getD 0 : Int) > 0
  · rw [if_pos hadd] at hq
    rw [if_pos hadd, if_pos hadd, if_pos ⟨by simpa using hrole, by simpa using hq⟩]
    exact main _ rfl
  · rw [if_neg hadd] at hq
    rw [if_neg hadd, if_neg hadd, if_pos ⟨by simpa using hrole, by simpa using hq⟩]
    exact main _ rfl

theorem loop2_quota (activeIds : List String) (cu : List (String × Int)) (now : Nat)
    (c : CandidateRecord) (vmA : VMRecord) (emails : List String)
    (hnodup : emails.Nodup) (hmemE : c.email ∈ emails)
    (b : Store × List String × List (String × String))
    (hnd : (b.1.vms.map VMRecord.instanceId).Nodup)
    (hc : getCandidate b.1 c.email = some c)
    (hact : c.deactivatedAt = none) (hrole : c.role = Role.candidate)
    (hA : getVM b.1 vmA.instanceId = some vmA)
    (hAe : vmA.candidateEmail = c.email)
    (hAt : vmA.terminatedAt = none)
    (hAid : vmA.instanceId ∈ activeIds)
    (ht : vmA.instanceId ∉ b.2.1)
    (hq : (if ((lookupAssoc cu c.email).getD 0 : Int) > 0
           then c.spentCents + (lookupAssoc cu c.email).getD 0 else c.spentCents)
          ≥ (c.quotaDollars : Int) * 100) :
    getVM (emails.foldl (enforceCandidate activeIds cu now) b).1 vmA.instanceId =
      some (killedRecord "quota_exceeded" now vmA) ∧
    vmA.instanceId ∈ (emails.foldl (enforceCandidate activeIds cu now) b).2.1 := by
  obtain ⟨l1, l2, rfl⟩ := List.append_of_mem hmemE
  rw [List.nodup_append] at hnodup
  have hl1 : ∀ e ∈ l1, e ≠ c.email := by
    intro e he heq
    exact hnodup.2.2 he (by rw [heq]; exact List.mem_cons_self _ _)
  rw [List.foldl_append, List.foldl_cons]
  have hpre := enforceFold_preserve activeIds cu now c vmA hAe l1 hl1 b hnd hc hA ht
  have hself := enforceCandidate_self activeIds cu now c vmA
    (l1.foldl (enforceCandidate activeIds cu now) b)
    hpre.1 hpre.2.1 hact hrole hpre.2.2.1 hAe hAt hAid hpre.2.2.2 hq
  have hK : getVM (enforceCandidate activeIds cu now
      (l1.foldl (enforceCandidate activeIds cu now) b) c.email).1
      (killedRecord "quota_exceeded" now vmA).instanceId =
      some (killedRecord "quota_exceeded" now vmA) := hself.2.1
  have hmem3 : (killedRecord "quota_exceeded" now vmA).instanceId ∈
      (enforceCandidate activeIds cu now
        (l1.foldl (enforceCandidate activeIds cu now) b) c.email).2.1 := hself.2.2
  have hpost := enforceFold_post activeIds cu now
    (killedRecord "quota_exceeded" now vmA) rfl l2
    (enforceCandidate activeIds cu now
      (l1.foldl (enforceCandidate activeIds cu now) b) c.email)
    hself.1 hK hmem3
  exact ⟨hpost.2.1, hpost.2.2⟩

set_option maxHeartbeats 2000000 in
theorem passA_quota (st : Store) (env : TickEnv) (live : List LiveInstance)
    (c : CandidateRecord) (vm : VMRecord) (l : LiveInstance)
    (hnd : (st.vms.map VMRecord.instanceId).Nodup)
    (hlive : env.listInstancesResult = some live)
    (hcand : getCandidate st c.email = some c)
    (hact : c.deactivatedAt = none) (hrole : c.role = Role.candidate)
    (hquota : spentAfterAccrual st live env.now c ≥ (c.quotaDollars : Int) * 100)
    (hvm : vm ∈ st.vms) (hvmEmail : vm.candidateEmail = c.email)
    (hvmActive : vm.terminatedAt = none)
    (hl : mapLookupLast live vm.instanceId = some l)
    (hlAlive : (l.status == "terminated") = false) :
    ∃ st3 toTerm cu tk, passA st env = some (st3, toTerm, cu, tk) ∧
      getVM st3 vm.instanceId =
        some (killedRecord "quota_exceeded" env.now (syncAliveRecord l env.now vm)) ∧
      vm.instanceId ∈ toTerm := by
  have hmemA : vm ∈ st.vms.filter (fun v => v.terminatedAt.isNone) :=
    List.mem_filter.mpr ⟨hvm, by simp [hvmActive]⟩
  have hempty : ¬ (st.vms.filter (fun v => v.terminatedAt.isNone)).isEmpty = true := by
    cases hfe : st.vms.filter (fun v => v.terminatedAt.isNone) with
    | nil =>
      rw [hfe] at hmemA
      exact absurd hmemA (List.not_mem_nil vm)
    | cons a as =>
      simp [List.isEmpty]
  have hndA : ((st.vms.filter (fun v => v.terminatedAt.isNone)).map VMRecord.instanceId).Nodup :=
    hnd.sublist ((List.filter_sublist st.vms).map VMRecord.instanceId)
  rcases hfold : (st.vms.filter (fun v => v.terminatedAt.isNone)).foldl
      (syncVM live env.now) (st, [], []) with ⟨S1, CU, TK⟩
  have h1 : getVM S1 vm.instanceId = some (syncAliveRecord l env.now vm) := by
    have h := loop1_getVM live env.now _ vm l hmemA hndA hl hlAlive (st, [], [])
    rw [hfold] at h
    exact h
  have hcand1 : getCandidate S1 c.email = some c := by
    have h := loop1_candidates live env.now
      (st.vms.filter (fun v => v.terminatedAt.isNone)) (st, [], [])
    rw [hfold] at h
    unfold getCandidate at hcand ⊢
    rw [show S1.candidates = st.candidates from h]
    exact hcand
  have hnd1 : (S1.vms.map VMRecord.instanceId).Nodup := by
    have h := loop1_keysNodup live env.now
      (st.vms.filter (fun v => v.terminatedAt.isNone)) (st, [], []) hnd
    rw [hfold] at h
    exact h
  have hq : (if ((lookupAssoc CU c.email).getD 0 : Int) > 0
      then c.spentCents + (lookupAssoc CU c.email).getD 0 else c.spentCents)
      ≥ (c.quotaDollars : Int) * 100 := by
    have hCU : passACandidateUpdates st live env.now = CU := by
      unfold passACandidateUpdates
      rw [hfold]
    have h := hquota
    simp only [spentAfterAccrual, hCU] at h
    exact h
  have hmemE : c.email ∈ dedupFirst
      ((st.vms.filter (fun v => v.terminatedAt.isNone)).map (fun v => v.candidateEmail)) := by
    rw [mem_dedupFirst]
    exact hvmEmail ▸ List.mem_map_of_mem _ hmemA
  have hAid : vm.instanceId ∈ (st.vms.filter (fun v => v.terminatedAt.isNone)).map
      (fun v => v.instanceId) := List.mem_map_of_mem _ hmemA
  have h1k : getVM S1 (syncAliveRecord l env.now vm).instanceId =
      some (syncAliveRecord l env.now vm) := h1
  have hAidk : (syncAliveRecord l env.now vm).instanceId ∈
      (st.vms.filter (fun v => v.terminatedAt.isNone)).map (fun v => v.instanceId) := hAid
  have hAek : (syncAliveRecord l env.now vm).candidateEmail = c.email := hvmEmail
  have hAtk : (syncAliveRecord l env.now vm).terminatedAt = none := hvmActive
  have hL2 := loop2_quota
    ((st.vms.filter (fun v => v.terminatedAt.isNone)).map (fun v => v.instanceId)) CU env.now
    c (syncAliveRecord l env.now vm)
    (dedupFirst ((st.vms.filter (fun v => v.terminatedAt.isNone)).map
      (fun v => v.candidateEmail)))
    (nodup_dedupFirst _) hmemE (S1, [], TK)
    hnd1 hcand1 hact hrole h1k hAek hAtk hAidk (List.not_mem_nil _) hq
  rcases hfold2 : (dedupFirst ((st.vms.filter (fun v => v.terminatedAt.isNone)).map
      (fun v => v.candidateEmail))).foldl
      (enforceCandidate ((st.vms.filter (fun v => v.terminatedAt.isNone)).map
        (fun v => v.instanceId)) CU env.now) (S1, [], TK) with ⟨S2, T2, K2⟩
  rw [hfold2] at hL2
  have h2 : getVM S2 vm.instanceId =
      some (killedRecord "quota_exceeded" env.now (syncAliveRecord l env.now vm)) := hL2.1
  have hmem2 : vm.instanceId ∈ T2 := hL2.2
  refine ⟨sshCleanup env S2 K2, T2, CU, K2, ?_, ?_, hmem2⟩
  · unfold passA
    dsimp only
    rw [if_neg hempty, hlive]
    dsimp only
    rw [hfold]
    dsimp only
    rw [hfold2]
  · show getVM (sshCleanup env S2 K2) vm.instanceId = _
    unfold getVM
    rw [sshCleanup_vms]
    exact h2

/-- Claim C2: on a reconciler tick whose upstream instance listing succeeds,
every VM of an existing, non-deactivated, non-admin candidate whose stored
spent cents after pass A cost accrual reach the quota — the VM being
locally active and still reported alive upstream — is marked terminated
with reason quota_exceeded and timestamp set to the tick clock, and its
instance id is included in the batched upstream terminate call. -/
theorem tick_quota_enforcement (st : Store) (env : TickEnv) (live : List LiveInstance)
    (c : CandidateRecord) (vm : VMRecord)
    (hnd : (st.vms.map VMRecord.instanceId).Nodup)
    (hlive : env.listInstancesResult = some live)
    (hcand : getCandidate st c.email = some c)
    (hact : c.deactivatedAt = none) (hrole : c.role = Role.candidate)
    (hquota : spentAfterAccrual st live env.now c ≥ (c.quotaDollars : Int) * 100)
    (hvm : vm ∈ st.vms) (hvmEmail : vm.candidateEmail = c.email)
    (hvmActive : vm.terminatedAt = none)
    (halive : upstreamAlive live vm.instanceId)
    (hfresh : ∀ p iid, env.launchResult p = some iid → iid ≠ vm.instanceId) :
    ∃ r, getVM (tick st env).store vm.instanceId = some r ∧
      r.status = "terminated" ∧ r.terminatedAt = some env.now ∧
      r.terminationReason = some "quota_exceeded" ∧
      vm.instanceId ∈ (tick st env).upstreamTerminated := by
  obtain ⟨l, hl, hlAlive⟩ := halive
  obtain ⟨st3, toTerm, cu, tk, hpa, hgv, hmem⟩ :=
    passA_quota st env live c vm l hnd hlive hcand hact hrole hquota hvm
      hvmEmail hvmActive hl hlAlive
  refine ⟨killedRecord "quota_exceeded" env.now (syncAliveRecord l env.now vm),
    ?_, rfl, rfl, rfl, ?_⟩
  · unfold tick
    rw [hpa]
    dsimp only
    rcases hB : passB st3 env with ⟨bst, flag⟩
    have hgb : getVM bst.store vm.instanceId =
        some (killedRecord "quota_exceeded" env.now (syncAliveRecord l env.now vm)) := by
      have h := passB_getVM st3 env vm.instanceId hfresh
      rw [hB] at h
      dsimp only at h
      rw [h]
      exact hgv
    cases flag with
    | true =>
      rw [if_pos rfl]
      show getVM (passC bst.store env.now) vm.instanceId = _
      unfold getVM
      rw [vms_passC]
      exact hgb
    | false =>
      rw [if_neg (by simp)]
      exact hgb
  · unfold tick
    rw [hpa]
    dsimp only
    rcases hB : passB st3 env with ⟨bst, flag⟩
    cases flag with
    | true =>
      rw [if_pos rfl]
      exact hmem
    | false =>
      rw [if_neg (by simp)]
      exact hmem

/-- Witness for the C2 theorem: the over-quota candidate of the spec
example (quota one dollar, 104 accrued cents) loses the VM on the tick. -/
theorem tick_quota_enforcement_witness :
    ∃ r, getVM (tick c2store c2env).store c2vm.instanceId = some r ∧
      r.status = "terminated" ∧ r.terminatedAt = some c2env.now ∧
      r.terminationReason = some "quota_exceeded" ∧
      c2vm.instanceId ∈ (tick c2store c2env).upstreamTerminated :=
  tick_quota_enforcement c2store c2env c2live c2cand c2vm
    (by decide) rfl (by decide) rfl rfl (by decide) (by decide) rfl rfl
    ⟨{ id := "i-2", status := "active", ip := some "1.2.3.4" }, by decide, by decide⟩
    (fun p iid h => Option.noConfusion h)

/-! ### Claim C3: the spent cache after a tick -/

/-- C3 (code bug): at the concrete failing input, a full tick with stable
inputs leaves `candidate.spentCents` at 50 while the authoritative
`computeSpentCents` over the post-tick records is 104.  The VM found
terminated upstream gets its final accrual written, but the per-candidate
delta is computed against the already-mutated record (the source looks the
previous value up in the mutated `vms` array), so the delta is zero and the
cache is never reconciled. -/
theorem tick_spent_cache_not_reconciled :
    (getCandidate (tick c3store c3env).store "alice@example.org").map
        (fun c => c.spentCents) = some 50 ∧
    (getCandidate (tick c3store c3env).store "alice@example.org").map
        (fun c => c.spentResetAt) = some none ∧
    computeSpentCents (tick c3store c3env).store.vms "alice@example.org" none c3env.now = 104 ∧
    (getVM (tick c3store c3env).store "i-3").map (fun v => v.terminationReason) =
      some (some "terminated_externally") ∧
    (50 : Int) ≠ 104 := by decide

/-! ### Claim C8: stale seed-claim cleanup -/

/-- C8 (code bug): at the concrete failing input — no queued launch
requests and a seeding claim older than 60 minutes — the tick returns
before section 3, so the stale record survives the tick even though pass C
alone would delete it. -/
theorem tick_skips_stale_seed_cleanup :
    (tick c8store c8env).store.seedStatuses = [c8stale] ∧
    c8stale.status = SeedSt.seeding ∧
    (c8env.now : Int) - (c8stale.claimedAt : Int) > 3600000 ∧
    (passC c8store c8env.now).seedStatuses = [] := by decide

/-! ### Claim C9: upstream filesystem paths -/

/-- C9 counterexample: the claim states that create issues
`POST /file-systems`, but the source issues the create request against the
`/filesystems` path (no hyphen), unlike list and delete. -/
theorem createFilesystemCall_not_hyphenated :
    createFilesystemCall.path = "/filesystems" ∧
    createFilesystemCall ≠ { method := HttpMethod.post, path := "/file-systems" } := by
  constructor
  · rfl
  · decide

/-- C9 (amended): the provider-client filesystem operations use
`GET /file-systems` for list, `DELETE /file-systems/{id}` for delete, but
`POST /filesystems` (no hyphen) for create. -/
theorem filesystemCall_paths :
    listFilesystemsCall = { method := HttpMethod.get, path := "/file-systems" } ∧
    createFilesystemCall = { method := HttpMethod.post, path := "/filesystems" } ∧
    ∀ id : String, deleteFilesystemCall id =
      { method := HttpMethod.delete, path := "/file-systems/" ++ id } :=
  ⟨rfl, rfl, fun _ => rfl⟩

/-! ### Claim C10: an admin cannot deactivate their own account -/

/-- C10: for an authenticated admin (whose candidate record is stored under
their email and not deactivated), DELETE on their own email returns
HTTP 400 with the self-delete message and performs no state change: the
store is unchanged (so the record keeps `deactivatedAt` unset and its
`quotaDollars`, no VM is terminated, no launch request is cancelled) and no
upstream terminate call is issued. -/
theorem adminCandidatesDelete_self_guard (st : Store) (admin : CandidateRecord)
    (emailQ : String) (env : TerminateEnv) (now : Nat)
    (hself : getCandidate st admin.email = some admin)
    (hactive : admin.deactivatedAt = none)
    (he : strToLower emailQ = admin.email) :
    adminCandidatesDelete st admin (some emailQ) env now =
      { status := 400, errorMsg := some "Cannot delete your own account", store := st,
        upstreamTerminates := [] } := by
  simp only [adminCandidatesDelete, he, hself]
  rw [if_neg (by simp [hactive])]
  simp

/-- Witness for C10 at the concrete store `c10store`. -/
theorem adminCandidatesDelete_self_guard_witness :
    adminCandidatesDelete c10store c10admin (some "Root@Example.org") c1env 5000 =
      { status := 400, errorMsg := some "Cannot delete your own account", store := c10store,
        upstreamTerminates := [] } :=
  adminCandidatesDelete_self_guard c10store c10admin "Root@Example.org" c1env 5000
    (by decide) (by decide) (by decide)

end GetGpu
